import Mathlib

/-!
# The streaming loop engine of `sf::Music`

A shallow embedding of `src/src/SFML/Audio/Music.cpp` (declared in
`src/include/SFML/Audio/Music.hpp`): the loop-point setter, the chunk producer
`onGetData`, the seek `onSeek` and the loop resolution `onLoop`.

Conventions of the embedding.

* `Uint64`, `std::size_t` and `unsigned int` values are natural numbers.  Sample
  counts of audio tracks stay far below `2 ^ 64`, so no wrap-around of `Uint64` is
  modelled; the `unsigned int` product that sizes the buffer in `initialize()` wraps
  modulo `2 ^ 32`.
* An integer division by zero (undefined behaviour in C++) and a conversion of an
  out-of-range `float` to `Uint64` make the embedded function return `none`.
* `float` values are rational numbers; every `float` operation of the source rounds
  its exact result with `roundFloat` (binary32, round to nearest, ties to even).
* In the sequential embedding every function is one atomic step.  The mutex `m_mutex` and
  the two execution contexts are modelled apart, in `Interleaving`, where each context takes
  the lines of its call one at a time.
* What `m_file->read` returns is an argument (`delivered`) of `onGetData`; the playback
  scenarios take it from `fileRead`, the file as the specification describes it.
-/

namespace sf

/-! ## Single-precision arithmetic -/

/-- Number of halvings of `p / q` needed to bring it below `2 ^ 24`. -/
def normDown : Nat → Nat → Nat → Nat → Nat
  | 0, _, _, sh => sh
  | fuel + 1, p, q, sh => if q * 2 ^ 24 ≤ p then normDown fuel p (2 * q) (sh + 1) else sh

/-- Number of doublings of `p / q` needed to bring it up to `2 ^ 23`, at most `fuel` of them. -/
def normUp : Nat → Nat → Nat → Nat → Nat
  | 0, _, _, sh => sh
  | fuel + 1, p, q, sh => if p < q * 2 ^ 23 then normUp fuel (2 * p) q (sh + 1) else sh

/-- The integer nearest to `n / d`, a tie going to the even neighbour. -/
def roundNearestEven (n d : Nat) : Nat :=
  let k := n / d
  let r := n % d
  if d < 2 * r ∨ (2 * r = d ∧ k % 2 = 1) then k + 1 else k

/-- The binary32 value nearest to the non-negative rational `p / q`: a 24-bit significand,
the smallest quantum being `2 ^ (-149)`. -/
def roundFloatPos (p q : Nat) : ℚ :=
  let dn := normDown 128 p q 0
  let up := normUp 149 p q 0
  (roundNearestEven (p * 2 ^ up) (q * 2 ^ dn) : ℚ) * 2 ^ dn / 2 ^ up

/-- The `float` (IEEE 754 binary32, round to nearest, ties to even) that a C++ `float`
operation with exact result `x` produces.  Overflow to infinity is not modelled: every
value of the embedding that exceeds the `float` range is also out of the `Uint64` range. -/
def roundFloat (x : ℚ) : ℚ :=
  if 0 ≤ x then roundFloatPos x.num.toNat x.den else -roundFloatPos (-x).num.toNat x.den

/-- The conversion `static_cast<Uint64>(x)` of a `float`: truncation toward zero, undefined
when the truncated value is not a `Uint64`. -/
def toUint64 (x : ℚ) : Option Nat :=
  if -1 < x ∧ x < 2 ^ 64 then some ⌊x⌋.toNat else none

/-! ## `sf::Time` -/

/-- Modelled from the spec: `sf::Time`, declared in `SFML/System/Time.hpp`, which is not
among the sources.  The specification treats a time as a number of seconds; the sources use
`sf::seconds(float)`, `Time::asSeconds()` (a `float`) and `Time::Zero` only, so a time is
the `float` number of seconds it was built from. -/
structure Time where
  /-- `Time::asSeconds()`. -/
  asSeconds : ℚ
deriving DecidableEq

/-- Modelled from the spec: `sf::seconds(amount)`. -/
def seconds (amount : ℚ) : Time := ⟨amount⟩

/-- Modelled from the spec: `sf::Time::Zero`. -/
def Time.Zero : Time := ⟨0⟩

/-! ## The track -/

/-- `SoundStream::BufferEnd`, what `onLoop` reports. -/
inductive BufferEnd where
  | LoopEnd
  | FileEnd
deriving DecidableEq

/-- What `Music::initialize()` reads from the opened `priv::SoundFile`. -/
structure SoundFile where
  /-- `m_file->getSampleCount()`. -/
  sampleCount : Nat
  /-- `m_file->getChannelCount()`. -/
  channelCount : Nat
  /-- `m_file->getSampleRate()`. -/
  sampleRate : Nat
deriving DecidableEq

/-- The state of a `sf::Music`: its member data and the three values it reads from its base
class `SoundStream`. -/
structure Music where
  /-- `getChannelCount()`. -/
  channelCount : Nat
  /-- `getSampleRate()`. -/
  sampleRate : Nat
  /-- `getLoop()`. -/
  loop : Bool
  /-- Music duration, in samples of all channels. -/
  m_sampleCount : Nat
  /-- Sample seek position (the cursor), in frames. -/
  m_seekPos : Nat
  /-- Loop start point, in frames. -/
  m_loopStart : Nat
  /-- Loop end point, in frames. -/
  m_loopEnd : Nat
  /-- `m_samples.size()`, the capacity of the temporary buffer of samples. -/
  m_samplesSize : Nat
deriving DecidableEq

namespace Music

/-- `Music::Music()`: nothing is opened. -/
def new : Music :=
  { channelCount := 0, sampleRate := 0, loop := false, m_sampleCount := 0,
    m_seekPos := 0, m_loopStart := 0, m_loopEnd := 0, m_samplesSize := 0 }

/-- `Music::initialize()`, the common part of the three `openFrom...` functions, on the file
just opened (`SoundStream::initialize` records the channel count and the sample rate).  The
size of the buffer is a product of two `unsigned int` values, taken modulo `2 ^ 32`. -/
def initializeState (s : Music) (file : SoundFile) : Option Music :=
  if file.channelCount = 0 then none
  else some
    { s with
      m_sampleCount := file.sampleCount
      m_seekPos := 0
      m_loopStart := 0
      m_loopEnd := file.sampleCount / file.channelCount
      m_samplesSize := (file.sampleRate * file.channelCount) % 4294967296
      channelCount := file.channelCount
      sampleRate := file.sampleRate }

/-- `SoundStream::setLoop(loop)`. -/
def setLoop (s : Music) (loop : Bool) : Music := { s with loop := loop }

/-- `Music::getSampleCount()`. -/
def getSampleCount (s : Music) : Nat := s.m_sampleCount

/-- `Music::getLoopStart()`: `seconds(static_cast<float>(m_loopStart) / getSampleRate())`. -/
def getLoopStart (s : Music) : Option Time :=
  if s.sampleRate = 0 then none
  else some (seconds (roundFloat (roundFloat s.m_loopStart / roundFloat s.sampleRate)))

/-- `Music::getLoopEnd()`: `seconds(static_cast<float>(m_loopEnd) / getSampleRate())`. -/
def getLoopEnd (s : Music) : Option Time :=
  if s.sampleRate = 0 then none
  else some (seconds (roundFloat (roundFloat s.m_loopEnd / roundFloat s.sampleRate)))

/-- The expression `static_cast<Uint64>(t.asSeconds() * getSampleRate())` of
`setLoopPointsFromTime` and `onSeek`. -/
def timeToSamples (s : Music) (t : Time) : Option Nat :=
  toUint64 (roundFloat (t.asSeconds * roundFloat s.sampleRate))

/-- `Music::setLoopPointsFromSamples(start, end)`: the result and the state afterwards. -/
def setLoopPointsFromSamples (s : Music) (start end_ : Nat) : Bool × Music :=
  if s.channelCount = 0 ∨ s.m_sampleCount = 0 then (false, s)
  else
    let realSamples := s.m_sampleCount / s.channelCount
    let start := if start > realSamples then realSamples else start
    let end_ := if end_ > realSamples ∨ end_ = 0 then realSamples else end_
    let both : Nat × Nat := if start = end_ then (0, realSamples) else (start, end_)
    (true, { s with m_loopStart := both.1, m_loopEnd := both.2 })

/-- `Music::setLoopPointsFromTime(start, end)`. -/
def setLoopPointsFromTime (s : Music) (start end_ : Time) : Option (Bool × Music) :=
  match s.timeToSamples start, s.timeToSamples end_ with
  | some a, some b => some (s.setLoopPointsFromSamples a b)
  | _, _ => none

/-- The amount `toFill` that `Music::onGetData` asks the file for. -/
def toFill (s : Music) : Nat :=
  if s.loop = true ∧ s.m_loopEnd ≠ 0 ∧ s.m_seekPos ≤ s.m_loopEnd ∧
      s.m_seekPos + s.m_samplesSize / s.channelCount > s.m_loopEnd
  then (s.m_loopEnd - s.m_seekPos) * s.channelCount
  else s.m_samplesSize

/-- `Music::onGetData(data)`, where `delivered` is what `m_file->read(.., toFill)` returns:
the state afterwards, `data.sampleCount` and the result. -/
def onGetData (s : Music) (delivered : Nat) : Option (Music × Nat × Bool) :=
  if s.channelCount = 0 then none
  else some
    ({ s with m_seekPos := s.m_seekPos + delivered / s.channelCount },
      delivered, decide (delivered = s.m_samplesSize))

/-- `Music::onSeek(timeOffset)`. -/
def onSeek (s : Music) (timeOffset : Time) : Option Music :=
  (s.timeToSamples timeOffset).map fun pos => { s with m_seekPos := pos }

/-- `Music::onLoop()`: the state afterwards and the end condition reported. -/
def onLoop (s : Music) : Option (Music × BufferEnd) :=
  if s.loop = true ∧ s.m_seekPos = s.m_loopEnd then
    (s.getLoopStart.bind s.onSeek).map fun s' => (s', BufferEnd.LoopEnd)
  else
    (s.onSeek Time.Zero).map fun s' => (s', BufferEnd.FileEnd)

/-- `Music::getLoopSampleOffset()`. -/
def getLoopSampleOffset (s : Music) : Nat := s.m_loopStart * s.channelCount

/-- Modelled from the spec: one iteration of the feed loop of `SoundStream`, whose code is
not among the sources: an `onGetData` call, followed by `onLoop` when it returned false. -/
def feedStep (s : Music) (delivered : Nat) : Option Music :=
  match s.onGetData delivered with
  | none => none
  | some (s', _, true) => some s'
  | some (s', _, false) => s'.onLoop.map Prod.fst

/-- The states a playback run reaches from `s0` by feed steps in which the file delivers at
most what was asked for. -/
inductive FeedReachable (s0 : Music) : Music → Prop
  | start : FeedReachable s0 s0
  | feed (s s' : Music) (delivered : Nat) :
      FeedReachable s0 s → delivered ≤ s.toFill → s.feedStep delivered = some s' →
      FeedReachable s0 s'

/-- The bounds of the loop points: both are at most `m_sampleCount / getChannelCount()`. -/
def LoopBounds (s : Music) : Prop :=
  s.m_loopStart ≤ s.m_sampleCount / s.channelCount ∧
    s.m_loopEnd ≤ s.m_sampleCount / s.channelCount

/-- The frame on which the seek of `onLoop` to `getLoopStart()` puts the cursor. -/
def loopSeekFrame (s : Music) : Option Nat := s.getLoopStart.bind s.timeToSamples

/-- A file of 1000 frames, one channel, 100 frames per second. -/
def tenSecondFile : SoundFile := { sampleCount := 1000, channelCount := 1, sampleRate := 100 }

/-- The track of `tenSecondFile` with looping enabled and the loop points (200, 500),
positioned at `pos`. -/
def forwardLoopAt (pos : Nat) : Music :=
  { channelCount := 1, sampleRate := 100, loop := true, m_sampleCount := 1000,
    m_seekPos := pos, m_loopStart := 200, m_loopEnd := 500, m_samplesSize := 100 }

/-- The track of `tenSecondFile` with looping enabled and the reverse loop points
(700, 300), positioned at `pos`. -/
def reverseLoopAt (pos : Nat) : Music :=
  { channelCount := 1, sampleRate := 100, loop := true, m_sampleCount := 1000,
    m_seekPos := pos, m_loopStart := 700, m_loopEnd := 300, m_samplesSize := 100 }

/-- A stereo track of 20000000 frames at 44100 Hz, looping over (16777217, 20000000), with
the cursor on the loop end. -/
def longLoopAtEnd : Music :=
  { channelCount := 2, sampleRate := 44100, loop := true, m_sampleCount := 40000000,
    m_seekPos := 20000000, m_loopStart := 16777217, m_loopEnd := 20000000,
    m_samplesSize := 88200 }

/-- Modelled from the spec: what `m_file->read(.., requested)` delivers when the file,
whose code is not among the sources, is positioned on the cursor: the samples asked for, or
the samples that remain before the end of the track when those are fewer. -/
def fileRead (s : Music) (requested : Nat) : Nat :=
  min requested (s.m_sampleCount - s.m_seekPos * s.channelCount)

/-- A feed step in which the file delivers what `fileRead` says. -/
def playStep (s : Music) : Option Music := s.feedStep (s.fileRead s.toFill)

/-- The state after `n` such feed steps. -/
def play : Nat → Music → Option Music
  | 0, s => some s
  | n + 1, s => s.playStep.bind (play n)

/-- The specification's reading of `setLoopPointsFromTime`: each time is converted to the
nearest frame, `round(seconds * sampleRate)`. -/
def setLoopPointsFromTimeRounded (s : Music) (start end_ : Time) : Bool × Music :=
  s.setLoopPointsFromSamples (round (start.asSeconds * s.sampleRate)).toNat
    (round (end_.asSeconds * s.sampleRate)).toNat

/-- The track of `tenSecondFile` as `initializeState` leaves it: not looping, the loop
points on the whole track. -/
def tenSecondTrack : Music :=
  { channelCount := 1, sampleRate := 100, loop := false, m_sampleCount := 1000,
    m_seekPos := 0, m_loopStart := 0, m_loopEnd := 1000, m_samplesSize := 100 }

/-- A stereo file of 20000000 frames at 44100 Hz. -/
def longFile : SoundFile :=
  { sampleCount := 40000000, channelCount := 2, sampleRate := 44100 }

/-- The track of `longFile` with looping enabled and the reverse loop points
(16777217, 44100), positioned at `pos`. -/
def longReverseAt (pos : Nat) : Music :=
  { channelCount := 2, sampleRate := 44100, loop := true, m_sampleCount := 40000000,
    m_seekPos := pos, m_loopStart := 16777217, m_loopEnd := 44100, m_samplesSize := 88200 }

/-- `Music::onSeek(timeOffset)` with the file it seeks: `seek` is what `m_file->seek` does
with the time it is given (the file is not among the sources); the result is what the file
was given to do (Music.cpp, line 203) and the state afterwards (line 204). -/
def onSeekWith {α : Type} (seek : Time → α) (s : Music) (timeOffset : Time) :
    Option (α × Music) :=
  (s.onSeek timeOffset).map fun s' => (seek timeOffset, s')

/-- Modelled from the spec: what `m_file->read(.., requested)` delivers when `remaining`
samples are left between the read position of the file and its end (the file is not among
the sources): the samples asked for, or those that remain when they are fewer. -/
def fileDeliver (remaining requested : Nat) : Nat := min requested remaining

/-- Repeated `onGetData` calls on a file with `remaining` samples left, which delivers what
`fileDeliver` says, up to and including the first call that returns false: the number of
calls, the samples delivered in all and the samples of the last chunk; `none` when `fuel`
calls have all returned true. -/
def getDataUntilFalse : Nat → Music → Nat → Option (Nat × Nat × Nat)
  | 0, _, _ => none
  | fuel + 1, s, remaining =>
    match s.onGetData (fileDeliver remaining s.toFill) with
    | none => none
    | some (_, n, false) => some (1, n, n)
    | some (s', n, true) =>
      (getDataUntilFalse fuel s' (remaining - n)).map fun r => (r.1 + 1, r.2.1 + n, r.2.2)

end Music

/-! ## The two execution contexts -/

/-- The execution contexts of the engine (specification, section 5): the control context
calls the setter, the feed context calls `onGetData` and `onLoop`. -/
inductive Context where
  | control
  | feed
deriving DecidableEq

/-- Where the control context stands in `Music::setLoopPointsFromSamples`, once `start` and
`end` are clamped (Music.cpp 167-173). -/
inductive SetterPc where
  /-- Line 168, `Lock lock(m_mutex)`. -/
  | lock
  /-- Line 169, `m_loopStart = start`. -/
  | writeStart
  /-- Line 170, `m_loopEnd = end`. -/
  | writeEnd
  /-- Line 172, the return: the lock goes out of scope. -/
  | unlock
  /-- The call is over. -/
  | done
deriving DecidableEq

/-- Where the feed context stands in `Music::onGetData` (Music.cpp 177-195) or in
`Music::onLoop` (209-223) and the `Music::onSeek` it calls (199-205). -/
inductive FeedPc where
  /-- `onGetData`, line 179, `Lock lock(m_mutex)`. -/
  | getDataLock
  /-- `onGetData`, lines 181-194, which read `m_loopEnd` and `m_seekPos`. -/
  | getDataBody
  /-- `onGetData`, line 195: the lock goes out of scope. -/
  | getDataUnlock
  /-- `onLoop`, line 213, `getLoop() && m_seekPos == m_loopEnd`: no lock is taken. -/
  | loopCompare
  /-- `onLoop`, line 215, `getLoopStart()`, which reads `m_loopStart` (line 128): no lock
  is taken. -/
  | loopGetStart
  /-- `onSeek`, line 201, `Lock lock(m_mutex)`. -/
  | seekLock
  /-- `onSeek`, lines 203-204, which write `m_seekPos`. -/
  | seekWrite
  /-- `onSeek`, line 205: the lock goes out of scope. -/
  | seekUnlock
  /-- The call is over. -/
  | done
deriving DecidableEq

/-- Modelled from the spec: the two execution contexts of section 5 at work on one
`sf::Music`, the control context in a `setLoopPointsFromSamples` call and the feed context in
an `onGetData` or an `onLoop` call, with the mutex `m_mutex` (`sf::Mutex`, `sf::Lock` and the
streaming thread are not among the sources): a context at a `Lock lock(m_mutex)` goes on only
when no context holds the mutex, and holds it until the scope of the lock ends. -/
structure Interleaving where
  /-- The members of the track, shared by the two contexts. -/
  music : Music
  /-- The context that holds `m_mutex`. -/
  mutex : Option Context
  /-- Where the control context stands. -/
  setterPc : SetterPc
  /-- The clamped `start` of the setter. -/
  start : Nat
  /-- The clamped `end` of the setter. -/
  end_ : Nat
  /-- Where the feed context stands. -/
  feedPc : FeedPc
  /-- What `m_file->read` returns in `onGetData`. -/
  delivered : Nat
  /-- The `m_loopStart` that the feed context has read. -/
  seenLoopStart : Option Nat
  /-- The `m_loopEnd` that the feed context has read. -/
  seenLoopEnd : Option Nat
  /-- The time that `onLoop` hands to `onSeek`. -/
  seekTime : Option Time
  /-- The holder of `m_mutex` at each read of a loop point by the feed context, the latest
  first. -/
  holders : List (Option Context)
deriving DecidableEq

namespace Interleaving

/-- One step of the context `ctx`: the next line of the call it is in; `none` when the
context waits for the mutex, has finished, or the line is undefined. -/
def step (c : Interleaving) (ctx : Context) : Option Interleaving :=
  match ctx with
  | Context.control =>
    match c.setterPc with
    | SetterPc.lock =>
      if c.mutex = none then
        some { c with mutex := some Context.control, setterPc := SetterPc.writeStart }
      else none
    | SetterPc.writeStart =>
      some { c with music := { c.music with m_loopStart := c.start },
                    setterPc := SetterPc.writeEnd }
    | SetterPc.writeEnd =>
      some { c with music := { c.music with m_loopEnd := c.end_ },
                    setterPc := SetterPc.unlock }
    | SetterPc.unlock => some { c with mutex := none, setterPc := SetterPc.done }
    | SetterPc.done => none
  | Context.feed =>
    match c.feedPc with
    | FeedPc.getDataLock =>
      if c.mutex = none then
        some { c with mutex := some Context.feed, feedPc := FeedPc.getDataBody }
      else none
    | FeedPc.getDataBody =>
      (c.music.onGetData c.delivered).map fun r =>
        { c with music := r.1, seenLoopEnd := some c.music.m_loopEnd,
                 holders := c.mutex :: c.holders, feedPc := FeedPc.getDataUnlock }
    | FeedPc.getDataUnlock => some { c with mutex := none, feedPc := FeedPc.done }
    | FeedPc.loopCompare =>
      if c.music.loop = true ∧ c.music.m_seekPos = c.music.m_loopEnd then
        some { c with seenLoopEnd := some c.music.m_loopEnd,
                      holders := c.mutex :: c.holders, feedPc := FeedPc.loopGetStart }
      else
        some { c with seenLoopEnd := some c.music.m_loopEnd,
                      holders := c.mutex :: c.holders, seekTime := some Time.Zero,
                      feedPc := FeedPc.seekLock }
    | FeedPc.loopGetStart =>
      c.music.getLoopStart.map fun t =>
        { c with seenLoopStart := some c.music.m_loopStart,
                 holders := c.mutex :: c.holders, seekTime := some t,
                 feedPc := FeedPc.seekLock }
    | FeedPc.seekLock =>
      if c.mutex = none then
        some { c with mutex := some Context.feed, feedPc := FeedPc.seekWrite }
      else none
    | FeedPc.seekWrite =>
      (c.seekTime.bind c.music.onSeek).map fun m =>
        { c with music := m, feedPc := FeedPc.seekUnlock }
    | FeedPc.seekUnlock => some { c with mutex := none, feedPc := FeedPc.done }
    | FeedPc.done => none

/-- What holds all along an `onGetData` call of the feed context beside a setter call of the
control context: the mutex is held by the control context exactly between the lock and the
return of the setter, by the feed context exactly between the lock and the return of
`onGetData`, and the feed context has read loop points only while it held the mutex. -/
def GetDataGuarded (c : Interleaving) : Prop :=
  (c.mutex = some Context.control ↔
      (c.setterPc = SetterPc.writeStart ∨ c.setterPc = SetterPc.writeEnd ∨
        c.setterPc = SetterPc.unlock)) ∧
    (c.mutex = some Context.feed ↔
      (c.feedPc = FeedPc.getDataBody ∨ c.feedPc = FeedPc.getDataUnlock)) ∧
    (c.feedPc = FeedPc.getDataLock ∨ c.feedPc = FeedPc.getDataBody ∨
      c.feedPc = FeedPc.getDataUnlock ∨ c.feedPc = FeedPc.done) ∧
    (∀ h ∈ c.holders, h = some Context.feed)

/-- The steps of a schedule, one context after the other. -/
def run : Interleaving → List Context → Option Interleaving
  | c, [] => some c
  | c, ctx :: rest => (c.step ctx).bind fun c' => run c' rest

/-- The ten-second track looping over (200, 500) with the cursor on the loop end, the control
context about to store the loop points (700, 300) and the feed context entering the call
`feedCall`. -/
def race (feedCall : FeedPc) : Interleaving :=
  { music := Music.forwardLoopAt 500, mutex := none, setterPc := SetterPc.lock,
    start := 700, end_ := 300, feedPc := feedCall, delivered := 0,
    seenLoopStart := none, seenLoopEnd := none, seekTime := none, holders := [] }

end Interleaving

/-! ## The loop-point setter -/

/-- C1: on an opened track, when the clamped start and end differ, the setter returns true
and stores the clamped start and the clamped end (0 standing for the end of the track). -/
theorem setLoopPoints_stores_clamped (s : Music) (start end_ : Nat)
    (hc : 0 < s.channelCount) (hs : 0 < s.m_sampleCount)
    (hne : min start (s.m_sampleCount / s.channelCount) ≠
      (if end_ = 0 ∨ end_ > s.m_sampleCount / s.channelCount
        then s.m_sampleCount / s.channelCount else end_)) :
    (s.setLoopPointsFromSamples start end_).1 = true ∧
      (s.setLoopPointsFromSamples start end_).2.m_loopStart =
        min start (s.m_sampleCount / s.channelCount) ∧
      (s.setLoopPointsFromSamples start end_).2.m_loopEnd =
        (if end_ = 0 then s.m_sampleCount / s.channelCount
          else min end_ (s.m_sampleCount / s.channelCount)) := by
  unfold Music.setLoopPointsFromSamples
  have h0 : ¬(s.channelCount = 0 ∨ s.m_sampleCount = 0) := by omega
  simp only [h0, if_false]
  generalize s.m_sampleCount / s.channelCount = frames at hne ⊢
  split_ifs at hne ⊢ <;> simp_all <;> omega

/-- Witness of C1 on the ten-second track: the points (200, 500) are stored as given. -/
theorem setLoopPoints_stores_clamped_witness :
    ((Music.forwardLoopAt 0).setLoopPointsFromSamples 200 500).1 = true ∧
      ((Music.forwardLoopAt 0).setLoopPointsFromSamples 200 500).2.m_loopStart = min 200 (1000 / 1) ∧
      ((Music.forwardLoopAt 0).setLoopPointsFromSamples 200 500).2.m_loopEnd =
        (if 500 = 0 then 1000 / 1 else min 500 (1000 / 1)) :=
  setLoopPoints_stores_clamped (Music.forwardLoopAt 0) 200 500 (by decide) (by decide) (by decide)

/-- C2: on an opened track, when the clamped start and end coincide, the setter resets the
loop to the whole track: loop start 0, loop end the number of frames. -/
theorem setLoopPoints_degenerate_resets (s : Music) (start end_ : Nat)
    (hc : 0 < s.channelCount) (hs : 0 < s.m_sampleCount)
    (heq : min start (s.m_sampleCount / s.channelCount) =
      (if end_ = 0 ∨ end_ > s.m_sampleCount / s.channelCount
        then s.m_sampleCount / s.channelCount else end_)) :
    (s.setLoopPointsFromSamples start end_).2.m_loopStart = 0 ∧
      (s.setLoopPointsFromSamples start end_).2.m_loopEnd =
        s.m_sampleCount / s.channelCount := by
  unfold Music.setLoopPointsFromSamples
  have h0 : ¬(s.channelCount = 0 ∨ s.m_sampleCount = 0) := by omega
  simp only [h0, if_false]
  generalize s.m_sampleCount / s.channelCount = frames at heq ⊢
  split_ifs at heq ⊢ <;> simp_all <;> omega

/-- Witness of C2 on the ten-second track: the points (300, 300) give the whole track. -/
theorem setLoopPoints_degenerate_resets_witness :
    ((Music.forwardLoopAt 0).setLoopPointsFromSamples 300 300).2.m_loopStart = 0 ∧
      ((Music.forwardLoopAt 0).setLoopPointsFromSamples 300 300).2.m_loopEnd = 1000 / 1 :=
  setLoopPoints_degenerate_resets (Music.forwardLoopAt 0) 300 300
    (by decide) (by decide) (by decide)

/-- C3: with no channel or no sample the setter returns false and leaves the loop start, the
loop end and the cursor (indeed the whole state) as they were. -/
theorem setLoopPoints_fails_unchanged (s : Music) (start end_ : Nat)
    (h : s.channelCount = 0 ∨ s.m_sampleCount = 0) :
    (s.setLoopPointsFromSamples start end_).1 = false ∧
      (s.setLoopPointsFromSamples start end_).2.m_loopStart = s.m_loopStart ∧
      (s.setLoopPointsFromSamples start end_).2.m_loopEnd = s.m_loopEnd ∧
      (s.setLoopPointsFromSamples start end_).2.m_seekPos = s.m_seekPos ∧
      (s.setLoopPointsFromSamples start end_).2 = s := by
  simp [Music.setLoopPointsFromSamples, h]

/-- Witness of C3 on a track that was never opened. -/
theorem setLoopPoints_fails_unchanged_witness :
    (Music.new.setLoopPointsFromSamples 200 500).1 = false ∧
      (Music.new.setLoopPointsFromSamples 200 500).2.m_loopStart = Music.new.m_loopStart ∧
      (Music.new.setLoopPointsFromSamples 200 500).2.m_loopEnd = Music.new.m_loopEnd ∧
      (Music.new.setLoopPointsFromSamples 200 500).2.m_seekPos = Music.new.m_seekPos ∧
      (Music.new.setLoopPointsFromSamples 200 500).2 = Music.new :=
  setLoopPoints_fails_unchanged Music.new 200 500 (Or.inl rfl)

/-- C4: the setter rejects no pair of positions: it returns true exactly when the track has
a channel and a sample, whatever start and end are, and false exactly when the channel count
or the sample count is zero. -/
theorem setLoopPoints_total (s : Music) (start end_ : Nat) :
    ((s.setLoopPointsFromSamples start end_).1 = true ↔
        0 < s.channelCount ∧ 0 < s.m_sampleCount) ∧
      ((s.setLoopPointsFromSamples start end_).1 = false ↔
        s.channelCount = 0 ∨ s.m_sampleCount = 0) := by
  unfold Music.setLoopPointsFromSamples
  by_cases h : s.channelCount = 0 ∨ s.m_sampleCount = 0
  · simp only [h, if_true]
    constructor
    · constructor
      · intro hf
        cases hf
      · intro hpos
        omega
    · simp
  · simp only [h, if_false]
    constructor
    · constructor
      · intro _
        omega
      · intro _
        trivial
    · simp

/-! ## The bounds of the loop points -/

/-- The state that `initializeState` produces for a file with a channel. -/
lemma initializeState_eq (s : Music) (file : SoundFile) (hc : 0 < file.channelCount) :
    s.initializeState file = some
      { s with
        m_sampleCount := file.sampleCount
        m_seekPos := 0
        m_loopStart := 0
        m_loopEnd := file.sampleCount / file.channelCount
        m_samplesSize := (file.sampleRate * file.channelCount) % 4294967296
        channelCount := file.channelCount
        sampleRate := file.sampleRate } := by
  have h0 : ¬file.channelCount = 0 := by omega
  simp [Music.initializeState, h0]

/-- The setter keeps the loop points within the track. -/
lemma setLoopPoints_loopBounds (s : Music) (start end_ : Nat) (h : s.LoopBounds) :
    (s.setLoopPointsFromSamples start end_).2.LoopBounds := by
  unfold Music.setLoopPointsFromSamples
  by_cases h0 : s.channelCount = 0 ∨ s.m_sampleCount = 0
  · simpa only [h0, if_true] using h
  · simp only [h0, if_false, Music.LoopBounds]
    generalize s.m_sampleCount / s.channelCount = frames
    split_ifs <;> simp_all

/-- What `onGetData` returns when the track has a channel. -/
lemma onGetData_eq (s : Music) (delivered : Nat) (hc : s.channelCount ≠ 0) :
    s.onGetData delivered = some
      ({ s with m_seekPos := s.m_seekPos + delivered / s.channelCount },
        delivered, decide (delivered = s.m_samplesSize)) := by
  simp [Music.onGetData, hc]

/-- The state after `onGetData` differs from the state before in the cursor only. -/
lemma onGetData_state (s s' : Music) (delivered n : Nat) (b : Bool)
    (h : s.onGetData delivered = some (s', n, b)) :
    s.channelCount ≠ 0 ∧
      s' = { s with m_seekPos := s.m_seekPos + delivered / s.channelCount } ∧
      n = delivered ∧ b = decide (delivered = s.m_samplesSize) := by
  unfold Music.onGetData at h
  by_cases hc : s.channelCount = 0
  · simp [hc] at h
  · simp only [hc, if_false, Option.some.injEq, Prod.mk.injEq] at h
    exact ⟨hc, h.1.symm, h.2.1.symm, h.2.2.symm⟩

/-- The state after `onSeek` differs from the state before in the cursor only. -/
lemma onSeek_state (s s' : Music) (t : Time) (h : s.onSeek t = some s') :
    ∃ pos, s.timeToSamples t = some pos ∧ s' = { s with m_seekPos := pos } := by
  unfold Music.onSeek at h
  cases hp : s.timeToSamples t with
  | none => simp [hp] at h
  | some pos =>
    refine ⟨pos, rfl, ?_⟩
    simp only [hp, Option.map_some', Option.some.injEq] at h
    exact h.symm

/-- The state after `onLoop` differs from the state before in the cursor only. -/
lemma onLoop_state (s s' : Music) (e : BufferEnd) (h : s.onLoop = some (s', e)) :
    ∃ pos, s' = { s with m_seekPos := pos } := by
  unfold Music.onLoop at h
  split_ifs at h with hl
  · cases hg : s.getLoopStart with
    | none => simp [hg] at h
    | some t =>
      cases hk : s.onSeek t with
      | none => simp [hg, hk] at h
      | some s2 =>
        simp only [hg, hk, Option.some_bind, Option.map_some', Option.some.injEq,
          Prod.mk.injEq] at h
        obtain ⟨pos, -, hpos⟩ := onSeek_state s s2 t hk
        exact ⟨pos, by rw [← h.1, hpos]⟩
  · cases hk : s.onSeek Time.Zero with
    | none => simp [hk] at h
    | some s2 =>
      simp only [hk, Option.map_some', Option.some.injEq, Prod.mk.injEq] at h
      obtain ⟨pos, -, hpos⟩ := onSeek_state s s2 Time.Zero hk
      exact ⟨pos, by rw [← h.1, hpos]⟩

/-- C5: the loop points stay within the track: both are at most
`m_sampleCount / getChannelCount()` after `initialize()` on a newly opened file, and the
setter, `onGetData`, `onSeek` and `onLoop` all keep them so. -/
theorem loopBounds_invariant :
    (∀ (s : Music) (file : SoundFile), 0 < file.channelCount →
        ∃ s', s.initializeState file = some s' ∧ s'.LoopBounds) ∧
      (∀ (s : Music) (start end_ : Nat), s.LoopBounds →
        (s.setLoopPointsFromSamples start end_).2.LoopBounds) ∧
      (∀ (s s' : Music) (delivered n : Nat) (b : Bool), s.LoopBounds →
        s.onGetData delivered = some (s', n, b) → s'.LoopBounds) ∧
      (∀ (s s' : Music) (t : Time), s.LoopBounds → s.onSeek t = some s' → s'.LoopBounds) ∧
      (∀ (s s' : Music) (e : BufferEnd), s.LoopBounds → s.onLoop = some (s', e) →
        s'.LoopBounds) := by
  refine ⟨?_, ?_, ?_, ?_, ?_⟩
  · intro s file hc
    refine ⟨_, initializeState_eq s file hc, ?_⟩
    simp [Music.LoopBounds]
  · intro s start end_ h
    exact setLoopPoints_loopBounds s start end_ h
  · intro s s' delivered n b h hg
    obtain ⟨-, hs, -, -⟩ := onGetData_state s s' delivered n b hg
    rw [hs]
    exact h
  · intro s s' t h hk
    obtain ⟨pos, -, hs⟩ := onSeek_state s s' t hk
    rw [hs]
    exact h
  · intro s s' e h hk
    obtain ⟨pos, hs⟩ := onLoop_state s s' e hk
    rw [hs]
    exact h

/-- Witness of C5: the reverse loop points (700, 300) set on the ten-second track, whose
loop points (200, 500) are within its 1000 frames, are within them too. -/
theorem loopBounds_invariant_witness :
    (Music.forwardLoopAt 0).LoopBounds ∧
      ((Music.forwardLoopAt 0).setLoopPointsFromSamples 700 300).2.LoopBounds :=
  ⟨by simp [Music.LoopBounds, Music.forwardLoopAt],
    loopBounds_invariant.2.1 (Music.forwardLoopAt 0) 700 300
      (by simp [Music.LoopBounds, Music.forwardLoopAt])⟩

/-- On a track with a channel and at least one whole frame the setter returns true and the
loop points it stores differ. -/
lemma setLoopPoints_ne_of_frame (s : Music) (start end_ : Nat)
    (hc : 0 < s.channelCount) (hs : s.channelCount ≤ s.m_sampleCount) :
    (s.setLoopPointsFromSamples start end_).1 = true ∧
      (s.setLoopPointsFromSamples start end_).2.m_loopStart ≠
        (s.setLoopPointsFromSamples start end_).2.m_loopEnd := by
  have hf : 0 < s.m_sampleCount / s.channelCount := Nat.div_pos hs hc
  unfold Music.setLoopPointsFromSamples
  have h0 : ¬(s.channelCount = 0 ∨ s.m_sampleCount = 0) := by omega
  simp only [h0, if_false]
  generalize s.m_sampleCount / s.channelCount = frames at hf ⊢
  split_ifs <;> simp_all <;> omega

/-- C6: on a track with a channel and a sample, whose sample count is, as that of every
sample source, a number of frames times the channel count, the setter returns true for every
start and end and the loop points it stores differ: no degenerate loop is stored. -/
theorem setLoopPoints_never_degenerate (s : Music) (frames start end_ : Nat)
    (hc : 0 < s.channelCount) (hs : 0 < s.m_sampleCount)
    (hdata : s.m_sampleCount = frames * s.channelCount) :
    (s.setLoopPointsFromSamples start end_).1 = true ∧
      (s.setLoopPointsFromSamples start end_).2.m_loopStart ≠
        (s.setLoopPointsFromSamples start end_).2.m_loopEnd := by
  have hframes : 0 < frames := by
    rcases Nat.eq_zero_or_pos frames with h | h
    · rw [hdata, h, Nat.zero_mul] at hs
      exact absurd hs (Nat.lt_irrefl 0)
    · exact h
  have hle : s.channelCount ≤ s.m_sampleCount := by
    rw [hdata]
    exact Nat.le_mul_of_pos_left _ hframes
  exact setLoopPoints_ne_of_frame s start end_ hc hle

/-- Witness of C6 on the ten-second track (1000 frames of one channel) with the points
(300, 300), stored as (0, 1000). -/
theorem setLoopPoints_never_degenerate_witness :
    ((Music.forwardLoopAt 0).setLoopPointsFromSamples 300 300).2.m_loopStart = 0 ∧
      ((Music.forwardLoopAt 0).setLoopPointsFromSamples 300 300).2.m_loopEnd = 1000 ∧
      ((Music.forwardLoopAt 0).setLoopPointsFromSamples 300 300).1 = true ∧
      ((Music.forwardLoopAt 0).setLoopPointsFromSamples 300 300).2.m_loopStart ≠
        ((Music.forwardLoopAt 0).setLoopPointsFromSamples 300 300).2.m_loopEnd :=
  ⟨by decide, by decide,
    setLoopPoints_never_degenerate (Music.forwardLoopAt 0) 1000 300 300 (by decide)
      (by decide) (by decide)⟩

/-! ## Chunks and the loop end -/

/-- A chunk of a looping track that starts at or before a loop end other than 0 stops at or
before it, whatever the file delivers of the amount asked for. -/
lemma advance_le_loopEnd (s : Music) (delivered : Nat) (hl : s.loop = true)
    (hd : delivered ≤ s.toFill) (hpos : s.m_seekPos ≤ s.m_loopEnd) (he : s.m_loopEnd ≠ 0) :
    s.m_seekPos + delivered / s.channelCount ≤ s.m_loopEnd := by
  unfold Music.toFill at hd
  split_ifs at hd with hshrink
  · have h1 : delivered / s.channelCount ≤ s.m_loopEnd - s.m_seekPos :=
      Nat.div_le_of_le_mul (by rw [Nat.mul_comm]; exact hd)
    omega
  · have h1 : delivered / s.channelCount ≤ s.m_samplesSize / s.channelCount :=
      Nat.div_le_div_right hd
    have h2 : ¬(s.m_seekPos + s.m_samplesSize / s.channelCount > s.m_loopEnd) := by
      intro h3
      exact hshrink ⟨hl, he, hpos, h3⟩
    omega

/-- C7: with looping enabled and the file delivering at most the amount asked for, no chunk
of `onGetData` straddles the loop end (cursor before < loop end < cursor after never holds);
a chunk that starts at or before a loop end other than 0 stops at or before it. -/
theorem onGetData_never_straddles (s s' : Music) (delivered n : Nat) (b : Bool)
    (hl : s.loop = true) (hd : delivered ≤ s.toFill)
    (h : s.onGetData delivered = some (s', n, b)) :
    ¬(s.m_seekPos < s.m_loopEnd ∧ s.m_loopEnd < s'.m_seekPos) ∧
      (s.m_seekPos ≤ s.m_loopEnd → s.m_loopEnd ≠ 0 → s'.m_seekPos ≤ s.m_loopEnd) := by
  obtain ⟨-, hs, -, -⟩ := onGetData_state s s' delivered n b h
  have key : s.m_seekPos ≤ s.m_loopEnd → s.m_loopEnd ≠ 0 → s'.m_seekPos ≤ s.m_loopEnd := by
    intro hpos he
    rw [hs]
    exact advance_le_loopEnd s delivered hl hd hpos he
  refine ⟨?_, key⟩
  rintro ⟨hlt, hgt⟩
  have := key (Nat.le_of_lt hlt) (by omega)
  omega

/-- Witness of C7: at frame 450 of the ten-second track looping over (200, 500) the chunk
is cut to 50 samples and the cursor stops on the loop end. -/
theorem onGetData_never_straddles_witness :
    (Music.forwardLoopAt 450).toFill = 50 ∧
      (Music.forwardLoopAt 450).onGetData 50 = some (Music.forwardLoopAt 500, 50, false) ∧
      ¬((Music.forwardLoopAt 450).m_seekPos < (Music.forwardLoopAt 450).m_loopEnd ∧
        (Music.forwardLoopAt 450).m_loopEnd < (Music.forwardLoopAt 500).m_seekPos) ∧
      ((Music.forwardLoopAt 450).m_seekPos ≤ (Music.forwardLoopAt 450).m_loopEnd →
        (Music.forwardLoopAt 450).m_loopEnd ≠ 0 →
        (Music.forwardLoopAt 500).m_seekPos ≤ (Music.forwardLoopAt 450).m_loopEnd) :=
  ⟨by decide, by decide,
    onGetData_never_straddles (Music.forwardLoopAt 450) (Music.forwardLoopAt 500) 50 50 false
      (by decide) (by decide) (by decide)⟩

/-! ## Seeking and loop resolution -/

/-- Nothing rounds to zero. -/
lemma roundNearestEven_zero (d : Nat) : roundNearestEven 0 d = 0 := by
  simp [roundNearestEven]

/-- The `float` literal `0.1f` is 13421773 / 2 ^ 27. -/
lemma roundFloat_tenth : roundFloat (1 / 10) = 13421773 / 134217728 := by
  decide!

/-- A `float` holds 2 ^ 24 but not 2 ^ 24 + 1, which rounds to its even neighbour. -/
lemma roundFloat_two_pow_24 :
    roundFloat 16777216 = 16777216 ∧ roundFloat 16777217 = 16777216 ∧
      roundFloat 16777219 = 16777220 := by
  decide!

/-- The smallest positive `float` is 2 ^ (-149); half of it rounds to zero. -/
lemma roundFloat_subnormal :
    roundFloat (1 / 2 ^ 149) = 1 / 2 ^ 149 ∧ roundFloat (1 / 2 ^ 150) = 0 := by
  decide!

/-- Zero is a `float`. -/
lemma roundFloat_zero : roundFloat 0 = 0 := by
  have h : roundNearestEven 0 (2 ^ normDown 128 0 1 0) = 0 := roundNearestEven_zero _
  simp [roundFloat, roundFloatPos, h]

/-- `Time::Zero` is frame 0 at every sample rate. -/
lemma timeToSamples_zero (s : Music) : s.timeToSamples Time.Zero = some 0 := by
  simp [Music.timeToSamples, Time.Zero, roundFloat_zero, toUint64]

/-- `onLoop` away from the loop end, or without looping: a seek to `Time::Zero`. -/
lemma onLoop_fileEnd (s : Music) (h : ¬(s.loop = true ∧ s.m_seekPos = s.m_loopEnd)) :
    s.onLoop = some ({ s with m_seekPos := 0 }, BufferEnd.FileEnd) := by
  simp [Music.onLoop, h, Music.onSeek, timeToSamples_zero]

/-- `onLoop` of a looping track on its loop end: a seek to the frame of `getLoopStart()`. -/
lemma onLoop_loopEnd (s : Music) (h : s.loop = true ∧ s.m_seekPos = s.m_loopEnd) :
    s.onLoop = s.loopSeekFrame.map fun pos => ({ s with m_seekPos := pos }, BufferEnd.LoopEnd) := by
  unfold Music.onLoop Music.loopSeekFrame Music.onSeek
  simp only [h, and_self, if_true]
  cases s.getLoopStart with
  | none => rfl
  | some t =>
    simp only [Option.some_bind]
    cases s.timeToSamples t <;> rfl

/-- The frame of `getLoopStart()` depends on the loop start and the sample rate only. -/
lemma loopSeekFrame_congr (s s2 : Music) (h1 : s.m_loopStart = s2.m_loopStart)
    (h2 : s.sampleRate = s2.sampleRate) : s.loopSeekFrame = s2.loopSeekFrame := by
  simp [Music.loopSeekFrame, Music.getLoopStart, Music.timeToSamples, h1, h2]

/-- A successful setter changes the loop points only. -/
lemma setLoopPoints_state (s s2 : Music) (start end_ : Nat) (b : Bool)
    (h : s.setLoopPointsFromSamples start end_ = (b, s2)) :
    ∃ x y, s2 = { s with m_loopStart := x, m_loopEnd := y } := by
  unfold Music.setLoopPointsFromSamples at h
  split_ifs at h with h0
  · refine ⟨s.m_loopStart, s.m_loopEnd, ?_⟩
    simp only [Prod.mk.injEq] at h
    exact h.2.symm
  · simp only [Prod.mk.injEq] at h
    exact ⟨_, _, h.2.symm⟩

/-- A feed step of a looping track with forward loop points whose loop-start seek is exact
keeps the cursor at or before the loop end. -/
lemma feedStep_le_loopEnd (s s' : Music) (delivered : Nat) (hl : s.loop = true)
    (hfwd : s.m_loopStart < s.m_loopEnd) (hseek : s.loopSeekFrame = some s.m_loopStart)
    (hpos : s.m_seekPos ≤ s.m_loopEnd) (hd : delivered ≤ s.toFill)
    (h : s.feedStep delivered = some s') :
    ∃ pos, s' = { s with m_seekPos := pos } ∧ pos ≤ s.m_loopEnd := by
  have hadv := advance_le_loopEnd s delivered hl hd hpos (by omega)
  unfold Music.feedStep at h
  by_cases hc : s.channelCount = 0
  · simp [Music.onGetData, hc] at h
  · rw [onGetData_eq s delivered hc] at h
    obtain ⟨sA, hsA⟩ : ∃ sA : Music,
        sA = { s with m_seekPos := s.m_seekPos + delivered / s.channelCount } := ⟨_, rfl⟩
    rw [← hsA] at h
    have hAloop : sA.loop = true := by rw [hsA]; exact hl
    have hApos : sA.m_seekPos = s.m_seekPos + delivered / s.channelCount := by rw [hsA]
    have hAend : sA.m_loopEnd = s.m_loopEnd := by rw [hsA]
    have hAseek : sA.loopSeekFrame = some s.m_loopStart := by
      rw [loopSeekFrame_congr sA s (by rw [hsA]) (by rw [hsA])]
      exact hseek
    by_cases hfull : delivered = s.m_samplesSize
    · simp only [hfull, decide_True, Option.some.injEq] at h
      refine ⟨s.m_seekPos + delivered / s.channelCount, ?_, hadv⟩
      rw [← h, hsA]
    · simp only [hfull, decide_False] at h
      by_cases hend : sA.m_seekPos = sA.m_loopEnd
      · rw [onLoop_loopEnd sA ⟨hAloop, hend⟩, hAseek] at h
        simp only [Option.map_some', Option.some.injEq] at h
        refine ⟨s.m_loopStart, ?_, Nat.le_of_lt hfwd⟩
        rw [← h, hsA]
      · have hno : ¬(sA.loop = true ∧ sA.m_seekPos = sA.m_loopEnd) := fun h2 => hend h2.2
        rw [onLoop_fileEnd sA hno] at h
        simp only [Option.map_some', Option.some.injEq] at h
        refine ⟨0, ?_, Nat.zero_le _⟩
        rw [← h, hsA]

/-- A newly opened track starts at frame 0. -/
lemma initializeState_seekPos (s0 s1 : Music) (file : SoundFile)
    (h : s0.initializeState file = some s1) : s1.m_seekPos = 0 := by
  unfold Music.initializeState at h
  split_ifs at h
  simp only [Option.some.injEq] at h
  rw [← h]

/-- Five full chunks take the ten-second track from frame 0 to its loop end 500. -/
lemma forwardLoop_reaches_end :
    Music.FeedReachable (Music.forwardLoopAt 0) (Music.forwardLoopAt 500) := by
  have h1 := Music.FeedReachable.feed (Music.forwardLoopAt 0) (Music.forwardLoopAt 100) 100
    Music.FeedReachable.start (by decide) (by decide)
  have h2 := Music.FeedReachable.feed (Music.forwardLoopAt 100) (Music.forwardLoopAt 200) 100
    h1 (by decide) (by decide)
  have h3 := Music.FeedReachable.feed (Music.forwardLoopAt 200) (Music.forwardLoopAt 300) 100
    h2 (by decide) (by decide)
  have h4 := Music.FeedReachable.feed (Music.forwardLoopAt 300) (Music.forwardLoopAt 400) 100
    h3 (by decide) (by decide)
  exact Music.FeedReachable.feed (Music.forwardLoopAt 400) (Music.forwardLoopAt 500) 100
    h4 (by decide) (by decide)

/-- On its loop end the ten-second track delivers an empty chunk and goes back to 200. -/
lemma forwardLoop_loops_back :
    Music.FeedReachable (Music.forwardLoopAt 0) (Music.forwardLoopAt 200) :=
  Music.FeedReachable.feed (Music.forwardLoopAt 500) (Music.forwardLoopAt 200) 0
    forwardLoop_reaches_end (by decide) (by decide!)

/-- With the reverse loop points (700, 300) the ten-second track plays up to 300, goes to
700 and plays on to 800. -/
lemma reverseLoop_reaches_800 :
    Music.FeedReachable (Music.reverseLoopAt 0) (Music.reverseLoopAt 800) := by
  have h1 := Music.FeedReachable.feed (Music.reverseLoopAt 0) (Music.reverseLoopAt 100) 100
    Music.FeedReachable.start (by decide) (by decide)
  have h2 := Music.FeedReachable.feed (Music.reverseLoopAt 100) (Music.reverseLoopAt 200) 100
    h1 (by decide) (by decide)
  have h3 := Music.FeedReachable.feed (Music.reverseLoopAt 200) (Music.reverseLoopAt 300) 100
    h2 (by decide) (by decide)
  have h4 := Music.FeedReachable.feed (Music.reverseLoopAt 300) (Music.reverseLoopAt 700) 0
    h3 (by decide) (by decide!)
  exact Music.FeedReachable.feed (Music.reverseLoopAt 700) (Music.reverseLoopAt 800) 100
    h4 (by decide) (by decide)

/-- C8, as stated, fails.  On the ten-second track opened, set to loop and given the loop
points (200, 500), the fifth chunk ends with the cursor on the loop end 500, which is neither
before the loop end nor the loop start; with the reverse loop points (700, 300) the cursor
reaches 800, beyond the loop end 300. -/
theorem feed_cursor_not_before_loopEnd :
    ((Music.new.initializeState Music.tenSecondFile).map fun s =>
        (s.setLoop true).setLoopPointsFromSamples 200 500) =
        some (true, Music.forwardLoopAt 0) ∧
      Music.FeedReachable (Music.forwardLoopAt 0) (Music.forwardLoopAt 500) ∧
      ¬((Music.forwardLoopAt 500).m_seekPos < (Music.forwardLoopAt 500).m_loopEnd ∨
        (Music.forwardLoopAt 500).m_seekPos = (Music.forwardLoopAt 500).m_loopStart) ∧
      ((Music.new.initializeState Music.tenSecondFile).map fun s =>
        (s.setLoop true).setLoopPointsFromSamples 700 300) =
        some (true, Music.reverseLoopAt 0) ∧
      Music.FeedReachable (Music.reverseLoopAt 0) (Music.reverseLoopAt 800) ∧
      (Music.reverseLoopAt 800).m_loopEnd < (Music.reverseLoopAt 800).m_seekPos :=
  ⟨by decide, forwardLoop_reaches_end, by decide, by decide, reverseLoop_reaches_800,
    by decide⟩

/-- C8, amended: on a newly opened track with looping enabled and forward loop points
(loop start < loop end) set by a successful `setLoopPointsFromSamples`, when the seek of
`onLoop` to `getLoopStart()` lands on the loop start, every state reached by feed steps has
its cursor at or before the loop end. -/
theorem feed_cursor_le_loopEnd (s0 s1 s2 s : Music) (file : SoundFile) (start end_ : Nat)
    (hopen : s0.initializeState file = some s1)
    (hset : (s1.setLoop true).setLoopPointsFromSamples start end_ = (true, s2))
    (hfwd : s2.m_loopStart < s2.m_loopEnd)
    (hseek : s2.loopSeekFrame = some s2.m_loopStart)
    (hreach : Music.FeedReachable s2 s) :
    s.m_seekPos ≤ s.m_loopEnd := by
  obtain ⟨x, y, h2⟩ := setLoopPoints_state _ s2 start end_ true hset
  have h2loop : s2.loop = true := by rw [h2]; rfl
  have h2pos : s2.m_seekPos = 0 := by
    rw [h2]
    exact initializeState_seekPos s0 s1 file hopen
  have inv : ∃ pos, s = { s2 with m_seekPos := pos } ∧ pos ≤ s2.m_loopEnd := by
    induction hreach with
    | start => exact ⟨s2.m_seekPos, rfl, by omega⟩
    | feed s s' delivered _ hd hstep ih =>
      obtain ⟨pos, hs, hp⟩ := ih
      have hloop : s.loop = true := by rw [hs]; exact h2loop
      have hstart : s.m_loopStart = s2.m_loopStart := by rw [hs]
      have hend : s.m_loopEnd = s2.m_loopEnd := by rw [hs]
      have hrate : s.sampleRate = s2.sampleRate := by rw [hs]
      have hcur : s.m_seekPos = pos := by rw [hs]
      obtain ⟨pos', hs', hp'⟩ := feedStep_le_loopEnd s s' delivered hloop
        (by omega) (by rw [loopSeekFrame_congr s s2 hstart hrate, hstart]; exact hseek)
        (by omega) hd hstep
      refine ⟨pos', ?_, by omega⟩
      rw [hs', hs]
  obtain ⟨pos, hs, hp⟩ := inv
  rw [hs]
  exact hp

/-- Witness of the amended C8: the ten-second track looping over (200, 500), after five
full chunks and the loop resolution on the loop end, is at frame 200. -/
theorem feed_cursor_le_loopEnd_witness :
    (Music.forwardLoopAt 0).loopSeekFrame = some 200 ∧
      (Music.forwardLoopAt 200).m_seekPos ≤ (Music.forwardLoopAt 200).m_loopEnd :=
  ⟨by decide!,
    feed_cursor_le_loopEnd Music.new
      { Music.forwardLoopAt 0 with loop := false, m_loopStart := 0, m_loopEnd := 1000 }
      (Music.forwardLoopAt 0) (Music.forwardLoopAt 200) Music.tenSecondFile 200 500
      (by decide) (by decide) (by decide) (by decide!) forwardLoop_loops_back⟩

/-- C9 fails on a stereo track of 20000000 frames at 44100 Hz that loops over
(16777217, 20000000): on the loop end `onLoop` reports `LoopEnd` and seeks to frame
16777216, not to the loop start 16777217, which no `float` holds. -/
theorem onLoop_misses_loopStart :
    Music.longLoopAtEnd.loop = true ∧
      Music.longLoopAtEnd.m_seekPos = Music.longLoopAtEnd.m_loopEnd ∧
      Music.longLoopAtEnd.m_loopStart = 16777217 ∧
      Music.longLoopAtEnd.onLoop =
        some ({ Music.longLoopAtEnd with m_seekPos := 16777216 }, BufferEnd.LoopEnd) := by
  refine ⟨rfl, rfl, rfl, ?_⟩
  decide!

/-- C10: with looping disabled, or with the cursor away from the loop end, `onLoop` reports
`FileEnd`, puts the cursor on frame 0 and leaves the loop points as they were. -/
theorem onLoop_sourceEnd (s : Music) (h : s.loop = false ∨ s.m_seekPos ≠ s.m_loopEnd) :
    ∃ s', s.onLoop = some (s', BufferEnd.FileEnd) ∧ s'.m_seekPos = 0 ∧
      s'.m_loopStart = s.m_loopStart ∧ s'.m_loopEnd = s.m_loopEnd := by
  have hno : ¬(s.loop = true ∧ s.m_seekPos = s.m_loopEnd) := by
    rintro ⟨hl, hp⟩
    rcases h with h | h
    · rw [hl] at h
      cases h
    · exact h hp
  exact ⟨_, onLoop_fileEnd s hno, rfl, rfl, rfl⟩

/-- Witness of C10: at frame 450 of the ten-second track looping over (200, 500), `onLoop`
goes back to frame 0. -/
theorem onLoop_sourceEnd_witness :
    ((Music.forwardLoopAt 450).loop = false ∨
        (Music.forwardLoopAt 450).m_seekPos ≠ (Music.forwardLoopAt 450).m_loopEnd) ∧
      ∃ s', (Music.forwardLoopAt 450).onLoop = some (s', BufferEnd.FileEnd) ∧
        s'.m_seekPos = 0 ∧ s'.m_loopStart = (Music.forwardLoopAt 450).m_loopStart ∧
        s'.m_loopEnd = (Music.forwardLoopAt 450).m_loopEnd :=
  ⟨Or.inr (by decide), onLoop_sourceEnd (Music.forwardLoopAt 450) (Or.inr (by decide))⟩

/-! ## Playback scenarios -/

/-- Feed steps compose: `n + 1` steps are `n` steps followed by one more. -/
lemma play_succ (n : Nat) (s : Music) :
    Music.play (n + 1) s = (Music.play n s).bind Music.playStep := by
  induction n generalizing s with
  | zero => simp [Music.play]
  | succ n ih =>
    rw [Music.play]
    cases h : s.playStep with
    | none => simp [Music.play, h]
    | some s1 =>
      rw [Option.some_bind, ih s1]
      conv_rhs => rw [Music.play, h, Option.some_bind]

/-- The four feed steps of one loop iteration of the ten-second track. -/
lemma forwardLoop_playStep :
    (Music.forwardLoopAt 200).playStep = some (Music.forwardLoopAt 300) ∧
      (Music.forwardLoopAt 300).playStep = some (Music.forwardLoopAt 400) ∧
      (Music.forwardLoopAt 400).playStep = some (Music.forwardLoopAt 500) ∧
      (Music.forwardLoopAt 500).playStep = some (Music.forwardLoopAt 200) := by
  refine ⟨by decide, by decide, by decide, by decide!⟩

/-- From any of the frames 200, 300, 400, 500 the ten-second track stays on those frames. -/
lemma forwardLoop_play_cycle (n : Nat) :
    ∀ p, p = 200 ∨ p = 300 ∨ p = 400 ∨ p = 500 →
      ∃ q, (q = 200 ∨ q = 300 ∨ q = 400 ∨ q = 500) ∧
        Music.play n (Music.forwardLoopAt p) = some (Music.forwardLoopAt q) := by
  induction n with
  | zero =>
    intro p hp
    exact ⟨p, hp, rfl⟩
  | succ n ih =>
    intro p hp
    obtain ⟨h2, h3, h4, h5⟩ := forwardLoop_playStep
    rcases hp with rfl | rfl | rfl | rfl
    · obtain ⟨q, hq, hplay⟩ := ih 300 (by omega)
      exact ⟨q, hq, by rw [Music.play, h2, Option.some_bind, hplay]⟩
    · obtain ⟨q, hq, hplay⟩ := ih 400 (by omega)
      exact ⟨q, hq, by rw [Music.play, h3, Option.some_bind, hplay]⟩
    · obtain ⟨q, hq, hplay⟩ := ih 500 (by omega)
      exact ⟨q, hq, by rw [Music.play, h4, Option.some_bind, hplay]⟩
    · obtain ⟨q, hq, hplay⟩ := ih 200 (by omega)
      exact ⟨q, hq, by rw [Music.play, h5, Option.some_bind, hplay]⟩

/-- C11: on the track of 1000 frames at 100 Hz with one channel and a buffer of 100
samples, `setLoopPointsFromTime(2 s, 5 s)` stores the loop points (200, 500); playback from
frame 0 with looping enabled reaches frame 500 in five chunks; there the next chunk is
empty, `onLoop` reports `LoopEnd` and puts the cursor on 200; from then on the cursor is
within [200, 500] after every feed step and every arrival at 500 is followed by 200. -/
theorem forward_loop_scenario :
    Music.new.initializeState Music.tenSecondFile = some Music.tenSecondTrack ∧
      (Music.tenSecondTrack.setLoop true).setLoopPointsFromTime (seconds 2) (seconds 5) =
        some (true, Music.forwardLoopAt 0) ∧
      Music.play 5 (Music.forwardLoopAt 0) = some (Music.forwardLoopAt 500) ∧
      (Music.forwardLoopAt 500).onGetData
          ((Music.forwardLoopAt 500).fileRead (Music.forwardLoopAt 500).toFill) =
        some (Music.forwardLoopAt 500, 0, false) ∧
      (Music.forwardLoopAt 500).onLoop = some (Music.forwardLoopAt 200, BufferEnd.LoopEnd) ∧
      (∀ n, ∃ p, 200 ≤ p ∧ p ≤ 500 ∧
        Music.play n (Music.forwardLoopAt 200) = some (Music.forwardLoopAt p)) ∧
      (∀ n, Music.play n (Music.forwardLoopAt 200) = some (Music.forwardLoopAt 500) →
        Music.play (n + 1) (Music.forwardLoopAt 200) = some (Music.forwardLoopAt 200)) := by
  refine ⟨by decide, by decide!, by decide, by decide, by decide!, ?_, ?_⟩
  · intro n
    obtain ⟨q, hq, hplay⟩ := forwardLoop_play_cycle n 200 (by omega)
    exact ⟨q, by omega, by omega, hplay⟩
  · intro n h
    rw [play_succ, h, Option.some_bind]
    exact forwardLoop_playStep.2.2.2

/-- Witness of C11: three feed steps after the loop resolution the cursor is on 500 again
and the fourth puts it back on 200. -/
theorem forward_loop_scenario_witness :
    Music.play 3 (Music.forwardLoopAt 200) = some (Music.forwardLoopAt 500) ∧
      Music.play 4 (Music.forwardLoopAt 200) = some (Music.forwardLoopAt 200) :=
  ⟨by decide, forward_loop_scenario.2.2.2.2.2.2 3 (by decide)⟩

/-- Reverse loop points stored by a successful setter have a loop end other than 0. -/
lemma setLoopPoints_reverse_loopEnd (s : Music) (start end_ : Nat)
    (hok : (s.setLoopPointsFromSamples start end_).1 = true)
    (hrev : (s.setLoopPointsFromSamples start end_).2.m_loopEnd <
      (s.setLoopPointsFromSamples start end_).2.m_loopStart) :
    (s.setLoopPointsFromSamples start end_).2.m_loopEnd ≠ 0 := by
  unfold Music.setLoopPointsFromSamples at hok hrev ⊢
  by_cases h0 : s.channelCount = 0 ∨ s.m_sampleCount = 0
  · simp [h0] at hok
  · simp only [h0, if_false] at hrev ⊢
    generalize s.m_sampleCount / s.channelCount = frames at hrev ⊢
    split_ifs at hrev ⊢ <;> simp_all

/-- A feed step of a looping track with reverse loop points whose loop-start seek is exact
leaves the cursor at or before the loop end, or at or after the loop start. -/
lemma feedStep_outside (s s' : Music) (delivered : Nat) (hl : s.loop = true)
    (he : s.m_loopEnd ≠ 0) (hseek : s.loopSeekFrame = some s.m_loopStart)
    (hpos : s.m_seekPos ≤ s.m_loopEnd ∨ s.m_loopStart ≤ s.m_seekPos)
    (hd : delivered ≤ s.toFill) (h : s.feedStep delivered = some s') :
    ∃ pos, s' = { s with m_seekPos := pos } ∧ (pos ≤ s.m_loopEnd ∨ s.m_loopStart ≤ pos) := by
  have hadv : s.m_seekPos + delivered / s.channelCount ≤ s.m_loopEnd ∨
      s.m_loopStart ≤ s.m_seekPos + delivered / s.channelCount := by
    rcases hpos with hp | hp
    · exact Or.inl (advance_le_loopEnd s delivered hl hd hp he)
    · exact Or.inr (Nat.le_trans hp (Nat.le_add_right _ _))
  unfold Music.feedStep at h
  by_cases hc : s.channelCount = 0
  · simp [Music.onGetData, hc] at h
  · rw [onGetData_eq s delivered hc] at h
    obtain ⟨sA, hsA⟩ : ∃ sA : Music,
        sA = { s with m_seekPos := s.m_seekPos + delivered / s.channelCount } := ⟨_, rfl⟩
    rw [← hsA] at h
    have hAloop : sA.loop = true := by rw [hsA]; exact hl
    have hAseek : sA.loopSeekFrame = some s.m_loopStart := by
      rw [loopSeekFrame_congr sA s (by rw [hsA]) (by rw [hsA])]
      exact hseek
    by_cases hfull : delivered = s.m_samplesSize
    · simp only [hfull, decide_True, Option.some.injEq] at h
      refine ⟨s.m_seekPos + delivered / s.channelCount, ?_, hadv⟩
      rw [← h, hsA]
    · simp only [hfull, decide_False] at h
      by_cases hend : sA.m_seekPos = sA.m_loopEnd
      · rw [onLoop_loopEnd sA ⟨hAloop, hend⟩, hAseek] at h
        simp only [Option.map_some', Option.some.injEq] at h
        refine ⟨s.m_loopStart, ?_, Or.inr (Nat.le_refl _)⟩
        rw [← h, hsA]
      · have hno : ¬(sA.loop = true ∧ sA.m_seekPos = sA.m_loopEnd) := fun h2 => hend h2.2
        rw [onLoop_fileEnd sA hno] at h
        simp only [Option.map_some', Option.some.injEq] at h
        refine ⟨0, ?_, Or.inl (Nat.zero_le _)⟩
        rw [← h, hsA]

/-- What the reverse loop does when the seek of `onLoop` to `getLoopStart()` lands on the
loop start: in a run from frame 0 of a newly opened looping track with reverse loop points,
no chunk holds a frame of [loop end, loop start). -/
lemma reverse_chunks_outside (s0 s1 s2 s s' : Music) (file : SoundFile)
    (start end_ delivered n : Nat) (b : Bool)
    (hopen : s0.initializeState file = some s1)
    (hset : (s1.setLoop true).setLoopPointsFromSamples start end_ = (true, s2))
    (hrev : s2.m_loopEnd < s2.m_loopStart)
    (hseek : s2.loopSeekFrame = some s2.m_loopStart)
    (hreach : Music.FeedReachable s2 s) (hd : delivered ≤ s.toFill)
    (hget : s.onGetData delivered = some (s', n, b)) :
    ∀ f, s.m_seekPos ≤ f → f < s'.m_seekPos → ¬(s.m_loopEnd ≤ f ∧ f < s.m_loopStart) := by
  obtain ⟨x, y, h2⟩ := setLoopPoints_state _ s2 start end_ true hset
  have h2loop : s2.loop = true := by rw [h2]; rfl
  have h2pos : s2.m_seekPos = 0 := by
    rw [h2]
    exact initializeState_seekPos s0 s1 file hopen
  have h2end : s2.m_loopEnd ≠ 0 := by
    have h := setLoopPoints_reverse_loopEnd (s1.setLoop true) start end_
    rw [hset] at h
    exact h rfl hrev
  have inv : ∀ t, Music.FeedReachable s2 t → ∃ pos, t = { s2 with m_seekPos := pos } ∧
      (pos ≤ s2.m_loopEnd ∨ s2.m_loopStart ≤ pos) := by
    intro t ht
    induction ht with
    | start => exact ⟨s2.m_seekPos, rfl, Or.inl (by omega)⟩
    | feed s s' delivered _ hd hstep ih =>
      obtain ⟨pos, hs, hp⟩ := ih
      have hloop : s.loop = true := by rw [hs]; exact h2loop
      have hstart : s.m_loopStart = s2.m_loopStart := by rw [hs]
      have hend : s.m_loopEnd = s2.m_loopEnd := by rw [hs]
      have hrate : s.sampleRate = s2.sampleRate := by rw [hs]
      have hcur : s.m_seekPos = pos := by rw [hs]
      obtain ⟨pos', hs', hp'⟩ := feedStep_outside s s' delivered hloop
        (by omega)
        (by rw [loopSeekFrame_congr s s2 hstart hrate, hstart]; exact hseek)
        (by omega) hd hstep
      refine ⟨pos', ?_, by omega⟩
      rw [hs', hs]
  obtain ⟨pos, hs, hp⟩ := inv s hreach
  obtain ⟨-, hs', -, -⟩ := onGetData_state s s' delivered n b hget
  have hloop : s.loop = true := by rw [hs]; exact h2loop
  have hstart : s.m_loopStart = s2.m_loopStart := by rw [hs]
  have hend : s.m_loopEnd = s2.m_loopEnd := by rw [hs]
  have hcur : s.m_seekPos = pos := by rw [hs]
  have hafter : s'.m_seekPos = s.m_seekPos + delivered / s.channelCount := by rw [hs']
  intro f hf1 hf2 hf3
  rcases hp with hp | hp
  · have := advance_le_loopEnd s delivered hloop hd (by omega) (by omega)
    omega
  · omega

/-- C12 fails on a stereo track of 20000000 frames at 44100 Hz with the reverse loop points
(16777217, 44100): playback from frame 0 reaches the loop end 44100, `onLoop` seeks to frame
16777216 instead of the loop start 16777217, and the next chunk holds frame 16777216, a
frame of [loop end, loop start). -/
theorem reverse_loop_plays_inside :
    ((Music.new.initializeState Music.longFile).map fun s =>
        (s.setLoop true).setLoopPointsFromSamples 16777217 44100) =
        some (true, Music.longReverseAt 0) ∧
      Music.FeedReachable (Music.longReverseAt 0) (Music.longReverseAt 16777216) ∧
      (Music.longReverseAt 16777216).toFill = 88200 ∧
      (Music.longReverseAt 16777216).onGetData 88200 =
        some (Music.longReverseAt 16821316, 88200, true) ∧
      ((Music.longReverseAt 16777216).m_seekPos ≤ 16777216 ∧
        16777216 < (Music.longReverseAt 16821316).m_seekPos) ∧
      ((Music.longReverseAt 16777216).m_loopEnd ≤ 16777216 ∧
        16777216 < (Music.longReverseAt 16777216).m_loopStart) := by
  have h1 := Music.FeedReachable.feed (Music.longReverseAt 0) (Music.longReverseAt 44100)
    88200 Music.FeedReachable.start (by decide) (by decide)
  have h2 := Music.FeedReachable.feed (Music.longReverseAt 44100)
    (Music.longReverseAt 16777216) 0 h1 (by decide) (by decide!)
  exact ⟨by decide, h2, by decide, by decide, by decide, by decide⟩

/-! ## Times and frames -/

/-- A `float` operation with a non-negative exact result has a non-negative result. -/
lemma roundFloat_nonneg (x : ℚ) (hx : 0 ≤ x) : 0 ≤ roundFloat x := by
  unfold roundFloat roundFloatPos
  rw [if_pos hx]
  positivity

/-- The frame of a non-negative time whose `float` product with the sample rate is a
`Uint64`: the truncation of that product. -/
lemma timeToSamples_trunc (s : Music) (t : Time) (h0 : 0 ≤ t.asSeconds)
    (h1 : roundFloat (t.asSeconds * roundFloat s.sampleRate) < 2 ^ 64) :
    s.timeToSamples t = some ⌊roundFloat (t.asSeconds * roundFloat s.sampleRate)⌋.toNat := by
  have hr : (0 : ℚ) ≤ roundFloat s.sampleRate := roundFloat_nonneg _ (Nat.cast_nonneg _)
  have hp : 0 ≤ roundFloat (t.asSeconds * roundFloat s.sampleRate) :=
    roundFloat_nonneg _ (mul_nonneg h0 hr)
  unfold Music.timeToSamples toUint64
  rw [if_pos ⟨by linarith, h1⟩]

/-- C13, as stated, fails: on the ten-second track `setLoopPointsFromTime(2.0078125 s, 5 s)`
stores the loop start 200, the truncation of 200.78125, where rounding to the nearest frame
gives 201. -/
theorem setLoopPointsFromTime_not_rounded :
    (Music.tenSecondTrack.setLoop true).setLoopPointsFromTime (seconds (257 / 128))
        (seconds 5) = some (true, Music.forwardLoopAt 0) ∧
      (Music.tenSecondTrack.setLoop true).setLoopPointsFromTimeRounded (seconds (257 / 128))
        (seconds 5) = (true, { Music.forwardLoopAt 0 with m_loopStart := 201 }) := by
  decide!

/-- C13, amended: for non-negative times whose `float` product with the sample rate is
below 2 ^ 64, `setLoopPointsFromTime(start, end)` is `setLoopPointsFromSamples` on the
truncations of those products: a time is converted to a frame by truncation. -/
theorem setLoopPointsFromTime_truncates (s : Music) (start end_ : Time)
    (h0 : 0 ≤ start.asSeconds) (h1 : 0 ≤ end_.asSeconds)
    (hs : roundFloat (start.asSeconds * roundFloat s.sampleRate) < 2 ^ 64)
    (he : roundFloat (end_.asSeconds * roundFloat s.sampleRate) < 2 ^ 64) :
    s.setLoopPointsFromTime start end_ =
      some (s.setLoopPointsFromSamples
        ⌊roundFloat (start.asSeconds * roundFloat s.sampleRate)⌋.toNat
        ⌊roundFloat (end_.asSeconds * roundFloat s.sampleRate)⌋.toNat) := by
  unfold Music.setLoopPointsFromTime
  rw [timeToSamples_trunc s start h0 hs, timeToSamples_trunc s end_ h1 he]

/-- Witness of the amended C13 on the ten-second track with the times 2.0078125 s and 5 s,
whose products with the sample rate are 200.78125 and 500. -/
theorem setLoopPointsFromTime_truncates_witness :
    roundFloat ((seconds (257 / 128)).asSeconds * roundFloat Music.tenSecondTrack.sampleRate) =
        25700 / 128 ∧
      Music.tenSecondTrack.setLoopPointsFromTime (seconds (257 / 128)) (seconds 5) =
        some (Music.tenSecondTrack.setLoopPointsFromSamples
          ⌊roundFloat ((seconds (257 / 128)).asSeconds *
            roundFloat Music.tenSecondTrack.sampleRate)⌋.toNat
          ⌊roundFloat ((seconds 5).asSeconds *
            roundFloat Music.tenSecondTrack.sampleRate)⌋.toNat) :=
  ⟨by decide!,
    setLoopPointsFromTime_truncates Music.tenSecondTrack (seconds (257 / 128)) (seconds 5)
      (by decide!) (by decide!) (by decide!) (by decide!)⟩

/-! ## Frame conditions and simple accessors -/

/-- On an opened track `setLoopPointsFromSamples(0, 0)` stores the whole track. -/
lemma setLoopPoints_zero_zero (s : Music) (hc : 0 < s.channelCount)
    (hs : 0 < s.m_sampleCount) :
    s.setLoopPointsFromSamples 0 0 =
      (true, { s with m_loopStart := 0, m_loopEnd := s.m_sampleCount / s.channelCount }) := by
  unfold Music.setLoopPointsFromSamples
  have h0 : ¬(s.channelCount = 0 ∨ s.m_sampleCount = 0) := by omega
  simp only [h0, if_false]
  generalize s.m_sampleCount / s.channelCount = frames
  split_ifs <;> simp_all

/-- C14: on an opened track, whatever the loop points and the cursor were,
`setLoopPointsFromSamples(0, 0)` returns true and stores loop start 0 and loop end the
number of frames; a second such call returns true and leaves the state as it is. -/
theorem setLoopPoints_reset_idempotent (s : Music) (hc : 0 < s.channelCount)
    (hs : 0 < s.m_sampleCount) :
    (s.setLoopPointsFromSamples 0 0).1 = true ∧
      (s.setLoopPointsFromSamples 0 0).2.m_loopStart = 0 ∧
      (s.setLoopPointsFromSamples 0 0).2.m_loopEnd = s.m_sampleCount / s.channelCount ∧
      (s.setLoopPointsFromSamples 0 0).2.setLoopPointsFromSamples 0 0 =
        (true, (s.setLoopPointsFromSamples 0 0).2) := by
  rw [setLoopPoints_zero_zero s hc hs]
  refine ⟨rfl, rfl, rfl, ?_⟩
  exact setLoopPoints_zero_zero _ hc hs

/-- Witness of C14 on the ten-second track looping over (200, 500), at frame 450. -/
theorem setLoopPoints_reset_idempotent_witness :
    ((Music.forwardLoopAt 450).setLoopPointsFromSamples 0 0).1 = true ∧
      ((Music.forwardLoopAt 450).setLoopPointsFromSamples 0 0).2.m_loopStart = 0 ∧
      ((Music.forwardLoopAt 450).setLoopPointsFromSamples 0 0).2.m_loopEnd = 1000 / 1 ∧
      ((Music.forwardLoopAt 450).setLoopPointsFromSamples 0 0).2.setLoopPointsFromSamples 0 0 =
        (true, ((Music.forwardLoopAt 450).setLoopPointsFromSamples 0 0).2) :=
  setLoopPoints_reset_idempotent (Music.forwardLoopAt 450) (by decide) (by decide)

/-- C15: whether it succeeds or fails, `setLoopPointsFromSamples` leaves the cursor, the
sample count and the size of the buffer of samples as they were (and the channel count, the
sample rate and the loop flag too). -/
theorem setLoopPoints_frame (s : Music) (start end_ : Nat) :
    (s.setLoopPointsFromSamples start end_).2.m_seekPos = s.m_seekPos ∧
      (s.setLoopPointsFromSamples start end_).2.m_sampleCount = s.m_sampleCount ∧
      (s.setLoopPointsFromSamples start end_).2.m_samplesSize = s.m_samplesSize ∧
      (s.setLoopPointsFromSamples start end_).2.channelCount = s.channelCount ∧
      (s.setLoopPointsFromSamples start end_).2.sampleRate = s.sampleRate ∧
      (s.setLoopPointsFromSamples start end_).2.loop = s.loop := by
  obtain ⟨x, y, h⟩ := setLoopPoints_state s (s.setLoopPointsFromSamples start end_).2
    start end_ (s.setLoopPointsFromSamples start end_).1 rfl
  rw [h]
  exact ⟨rfl, rfl, rfl, rfl, rfl, rfl⟩

/-- C16: `initialize()` on a file of `S` samples in `C ≥ 1` channels gives
`getSampleCount() = S`, loop start 0, loop end `S / C` and cursor 0, whatever the loop
points and the cursor were before. -/
theorem initializeState_resets (s : Music) (file : SoundFile) (hc : 1 ≤ file.channelCount) :
    ∃ s', s.initializeState file = some s' ∧ s'.getSampleCount = file.sampleCount ∧
      s'.m_loopStart = 0 ∧ s'.m_loopEnd = file.sampleCount / file.channelCount ∧
      s'.m_seekPos = 0 :=
  ⟨_, initializeState_eq s file hc, rfl, rfl, rfl, rfl⟩

/-- Witness of C16: opening the ten-second file on a track that was looping over
(700, 300) at frame 800. -/
theorem initializeState_resets_witness :
    ∃ s', (Music.reverseLoopAt 800).initializeState Music.tenSecondFile = some s' ∧
      s'.getSampleCount = Music.tenSecondFile.sampleCount ∧ s'.m_loopStart = 0 ∧
      s'.m_loopEnd = Music.tenSecondFile.sampleCount / Music.tenSecondFile.channelCount ∧
      s'.m_seekPos = 0 :=
  initializeState_resets (Music.reverseLoopAt 800) Music.tenSecondFile (by decide)

/-- C17: `onGetData` hands over what the file delivered and returns true exactly when that
fills the buffer of samples, so a shorter read returns false; on a track with a channel
the call does return. -/
theorem onGetData_result (s : Music) (delivered : Nat) :
    (s.channelCount ≠ 0 → ∃ s' b, s.onGetData delivered = some (s', delivered, b)) ∧
      (∀ (s' : Music) (n : Nat) (b : Bool), s.onGetData delivered = some (s', n, b) →
        n = delivered ∧ (b = true ↔ n = s.m_samplesSize) ∧
          (n < s.m_samplesSize → b = false)) := by
  constructor
  · intro hc
    exact ⟨_, _, onGetData_eq s delivered hc⟩
  · intro s' n b h
    obtain ⟨-, -, hn, hb⟩ := onGetData_state s s' delivered n b h
    subst hn hb
    refine ⟨rfl, by simp, ?_⟩
    intro hlt
    simp only [decide_eq_false_iff_not]
    omega

/-- Witness of C17: a full chunk at frame 0 of the ten-second track returns true, the
chunk cut to 50 samples at frame 450 returns false. -/
theorem onGetData_result_witness :
    (Music.forwardLoopAt 0).onGetData 100 = some (Music.forwardLoopAt 100, 100, true) ∧
      (50 = 50 ∧ (false = true ↔ 50 = (Music.forwardLoopAt 450).m_samplesSize) ∧
        (50 < (Music.forwardLoopAt 450).m_samplesSize → false = false)) :=
  ⟨by decide,
    (onGetData_result (Music.forwardLoopAt 450) 50).2 (Music.forwardLoopAt 500) 50 false
      (by decide)⟩

/-- C18: `getLoopSampleOffset()` is the loop start times the channel count, a value read
off the state; with the loop start within the track it is at most the sample count. -/
theorem getLoopSampleOffset_value (s : Music) :
    s.getLoopSampleOffset = s.m_loopStart * s.channelCount ∧
      (s.LoopBounds → s.getLoopSampleOffset ≤ s.m_sampleCount) := by
  refine ⟨rfl, ?_⟩
  intro h
  unfold Music.getLoopSampleOffset
  calc s.m_loopStart * s.channelCount
      ≤ s.m_sampleCount / s.channelCount * s.channelCount := Nat.mul_le_mul_right _ h.1
    _ ≤ s.m_sampleCount := Nat.div_mul_le_self _ _

/-- Witness of C18 on the stereo track looping over (16777217, 20000000). -/
theorem getLoopSampleOffset_value_witness :
    Music.longLoopAtEnd.getLoopSampleOffset = 16777217 * 2 ∧
      Music.longLoopAtEnd.getLoopSampleOffset ≤ Music.longLoopAtEnd.m_sampleCount :=
  ⟨(getLoopSampleOffset_value Music.longLoopAtEnd).1,
    (getLoopSampleOffset_value Music.longLoopAtEnd).2
      (by simp [Music.LoopBounds, Music.longLoopAtEnd])⟩

/-- C20: `onGetData` asks the file for `(loop end - cursor) * channel count` samples when
looping is enabled, the loop end is not 0, the cursor is at or before the loop end and
cursor + buffer size / channel count exceeds the loop end; in every other case it asks for
the full buffer size. -/
theorem toFill_rule (s : Music) :
    (s.loop = true → s.m_loopEnd ≠ 0 → s.m_seekPos ≤ s.m_loopEnd →
        s.m_loopEnd < s.m_seekPos + s.m_samplesSize / s.channelCount →
        s.toFill = (s.m_loopEnd - s.m_seekPos) * s.channelCount) ∧
      (s.loop = false ∨ s.m_loopEnd = 0 ∨ s.m_loopEnd < s.m_seekPos ∨
          s.m_seekPos + s.m_samplesSize / s.channelCount ≤ s.m_loopEnd →
        s.toFill = s.m_samplesSize) := by
  constructor
  · intro h1 h2 h3 h4
    unfold Music.toFill
    rw [if_pos ⟨h1, h2, h3, h4⟩]
  · intro h
    unfold Music.toFill
    rw [if_neg]
    rintro ⟨h1, h2, h3, h4⟩
    rcases h with h | h | h | h
    · rw [h1] at h
      cases h
    · exact h2 h
    · omega
    · omega

/-- Witness of C20 on the ten-second track looping over (200, 500): 50 samples are asked
for at frame 450, the full 100 at frame 0. -/
theorem toFill_rule_witness :
    (Music.forwardLoopAt 450).toFill =
        ((Music.forwardLoopAt 450).m_loopEnd - (Music.forwardLoopAt 450).m_seekPos) *
          (Music.forwardLoopAt 450).channelCount ∧
      (Music.forwardLoopAt 0).toFill = (Music.forwardLoopAt 0).m_samplesSize :=
  ⟨(toFill_rule (Music.forwardLoopAt 450)).1 (by decide) (by decide) (by decide) (by decide),
    (toFill_rule (Music.forwardLoopAt 0)).2 (Or.inr (Or.inr (Or.inr (by decide))))⟩

/-! ## Chunks at the loop end -/

/-- A track for which the shrink condition of `onGetData` holds has a channel. -/
lemma channelCount_ne_zero_of_near (s : Music) (hpos : s.m_seekPos ≤ s.m_loopEnd)
    (hnear : s.m_loopEnd < s.m_seekPos + s.m_samplesSize / s.channelCount) :
    s.channelCount ≠ 0 := by
  intro h0
  rw [h0, Nat.div_zero] at hnear
  omega

/-- Under the shrink condition `onGetData` asks for the samples up to the loop end, fewer
than the buffer holds. -/
lemma toFill_shrunk (s : Music) (hl : s.loop = true) (he : s.m_loopEnd ≠ 0)
    (hpos : s.m_seekPos ≤ s.m_loopEnd)
    (hnear : s.m_loopEnd < s.m_seekPos + s.m_samplesSize / s.channelCount) :
    s.toFill = (s.m_loopEnd - s.m_seekPos) * s.channelCount ∧ s.toFill < s.m_samplesSize := by
  have hc : 0 < s.channelCount := Nat.pos_of_ne_zero (channelCount_ne_zero_of_near s hpos hnear)
  have h1 : s.toFill = (s.m_loopEnd - s.m_seekPos) * s.channelCount := by
    unfold Music.toFill
    rw [if_pos ⟨hl, he, hpos, hnear⟩]
  refine ⟨h1, ?_⟩
  rw [h1]
  have h2 : s.m_loopEnd - s.m_seekPos + 1 ≤ s.m_samplesSize / s.channelCount := by omega
  calc (s.m_loopEnd - s.m_seekPos) * s.channelCount
      < (s.m_loopEnd - s.m_seekPos + 1) * s.channelCount :=
        Nat.mul_lt_mul_of_pos_right (Nat.lt_succ_self _) hc
    _ ≤ s.m_samplesSize / s.channelCount * s.channelCount := Nat.mul_le_mul_right _ h2
    _ ≤ s.m_samplesSize := Nat.div_mul_le_self _ _

/-- C21: with looping enabled, a loop end other than 0 that lies within the track, the
cursor at or before it and less than a buffer away from it, and a file positioned on the
cursor that delivers every sample asked for that exists, `onGetData` leaves the cursor on
the loop end exactly, and `onLoop` then takes its `LoopEnd` branch. -/
theorem onGetData_arrives_at_loopEnd (s : Music) (hl : s.loop = true) (he : s.m_loopEnd ≠ 0)
    (hpos : s.m_seekPos ≤ s.m_loopEnd)
    (hin : s.m_loopEnd ≤ s.m_sampleCount / s.channelCount)
    (hnear : s.m_loopEnd < s.m_seekPos + s.m_samplesSize / s.channelCount) :
    ∃ s' n b, s.onGetData (s.fileRead s.toFill) = some (s', n, b) ∧
      s'.m_seekPos = s.m_loopEnd ∧ (s'.loop = true ∧ s'.m_seekPos = s'.m_loopEnd) ∧
      s'.onLoop =
        s'.loopSeekFrame.map fun pos => ({ s' with m_seekPos := pos }, BufferEnd.LoopEnd) := by
  have hc0 : s.channelCount ≠ 0 := channelCount_ne_zero_of_near s hpos hnear
  have hc : 0 < s.channelCount := Nat.pos_of_ne_zero hc0
  obtain ⟨hfill, -⟩ := toFill_shrunk s hl he hpos hnear
  have hle : s.m_loopEnd * s.channelCount ≤ s.m_sampleCount :=
    Nat.le_trans (Nat.mul_le_mul_right _ hin) (Nat.div_mul_le_self _ _)
  have hread : s.fileRead s.toFill = (s.m_loopEnd - s.m_seekPos) * s.channelCount := by
    unfold Music.fileRead
    rw [hfill, Nat.sub_mul]
    exact Nat.min_eq_left (Nat.sub_le_sub_right hle _)
  have hcur : s.m_seekPos + s.fileRead s.toFill / s.channelCount = s.m_loopEnd := by
    rw [hread, Nat.mul_div_cancel _ hc]
    omega
  refine ⟨_, _, _, onGetData_eq s _ hc0, hcur, ⟨hl, hcur⟩, ?_⟩
  exact onLoop_loopEnd _ ⟨hl, hcur⟩

/-- Witness of C21: at frame 450 of the ten-second track looping over (200, 500) the
chunk of 50 samples ends on frame 500 and `onLoop` reports `LoopEnd`. -/
theorem onGetData_arrives_at_loopEnd_witness :
    (Music.forwardLoopAt 450).onGetData
        ((Music.forwardLoopAt 450).fileRead (Music.forwardLoopAt 450).toFill) =
        some (Music.forwardLoopAt 500, 50, false) ∧
      (Music.forwardLoopAt 500).onLoop = some (Music.forwardLoopAt 200, BufferEnd.LoopEnd) ∧
      ∃ s' n b, (Music.forwardLoopAt 450).onGetData
          ((Music.forwardLoopAt 450).fileRead (Music.forwardLoopAt 450).toFill) =
          some (s', n, b) ∧
        s'.m_seekPos = (Music.forwardLoopAt 450).m_loopEnd ∧
        (s'.loop = true ∧ s'.m_seekPos = s'.m_loopEnd) ∧
        s'.onLoop =
          s'.loopSeekFrame.map fun pos => ({ s' with m_seekPos := pos }, BufferEnd.LoopEnd) :=
  ⟨by decide, by decide!,
    onGetData_arrives_at_loopEnd (Music.forwardLoopAt 450) (by decide) (by decide)
      (by decide) (by decide) (by decide)⟩

/-- C22: under the shrink condition of `onGetData` on a track with a channel, the amount
asked for is smaller than the buffer of samples and `onGetData` returns false, whatever the
file delivers of that amount. -/
theorem onGetData_shrunk_returns_false (s : Music) (delivered : Nat)
    (hc : 1 ≤ s.channelCount) (hl : s.loop = true) (he : s.m_loopEnd ≠ 0)
    (hpos : s.m_seekPos ≤ s.m_loopEnd)
    (hnear : s.m_loopEnd < s.m_seekPos + s.m_samplesSize / s.channelCount)
    (hd : delivered ≤ s.toFill) :
    s.toFill < s.m_samplesSize ∧
      ∃ s', s.onGetData delivered = some (s', delivered, false) := by
  obtain ⟨-, hlt⟩ := toFill_shrunk s hl he hpos hnear
  have hne : ¬delivered = s.m_samplesSize := by omega
  refine ⟨hlt, { s with m_seekPos := s.m_seekPos + delivered / s.channelCount }, ?_⟩
  rw [onGetData_eq s delivered (by omega)]
  simp [hne]

/-- Witness of C22: at frame 450 of the ten-second track looping over (200, 500), 50
samples are asked for and a chunk of 30 samples returns false. -/
theorem onGetData_shrunk_returns_false_witness :
    (Music.forwardLoopAt 450).toFill < (Music.forwardLoopAt 450).m_samplesSize ∧
      ∃ s', (Music.forwardLoopAt 450).onGetData 30 = some (s', 30, false) :=
  onGetData_shrunk_returns_false (Music.forwardLoopAt 450) 30 (by decide) (by decide)
    (by decide) (by decide) (by decide) (by decide)

/-- C23: on a track with a channel `onGetData` advances the cursor by the number of samples
delivered divided by the channel count: the cursor never decreases, and stays where it is
when nothing is delivered. -/
theorem onGetData_advances (s : Music) (n : Nat) (hc : 1 ≤ s.channelCount) :
    ∃ s' b, s.onGetData n = some (s', n, b) ∧
      s'.m_seekPos = s.m_seekPos + n / s.channelCount ∧ s.m_seekPos ≤ s'.m_seekPos ∧
      (n = 0 → s'.m_seekPos = s.m_seekPos) := by
  refine ⟨_, _, onGetData_eq s n (by omega), rfl, Nat.le_add_right _ _, ?_⟩
  intro h0
  simp [h0]

/-- Witness of C23 on the stereo track at frame 20000000: 88201 samples advance the
cursor by 44100 frames. -/
theorem onGetData_advances_witness :
    ∃ s' b, Music.longLoopAtEnd.onGetData 88201 = some (s', 88201, b) ∧
      s'.m_seekPos = Music.longLoopAtEnd.m_seekPos + 88201 / Music.longLoopAtEnd.channelCount ∧
      Music.longLoopAtEnd.m_seekPos ≤ s'.m_seekPos ∧
      (88201 = 0 → s'.m_seekPos = Music.longLoopAtEnd.m_seekPos) :=
  onGetData_advances Music.longLoopAtEnd 88201 (by decide)

/-- C28: with looping enabled, the cursor on a loop end other than 0, a channel and a
buffer of at least one frame, `onGetData` asks for 0 samples, hands over an empty chunk,
leaves the state as it is and returns false; `onLoop` then takes its `LoopEnd` branch. -/
theorem onGetData_empty_at_loopEnd (s : Music) (hl : s.loop = true) (he : s.m_loopEnd ≠ 0)
    (hcur : s.m_seekPos = s.m_loopEnd) (hc : 1 ≤ s.channelCount)
    (hb : s.channelCount ≤ s.m_samplesSize) :
    s.toFill = 0 ∧ s.onGetData (s.fileRead s.toFill) = some (s, 0, false) ∧
      (∀ delivered, delivered ≤ s.toFill → s.onGetData delivered = some (s, 0, false)) ∧
      s.onLoop =
        s.loopSeekFrame.map fun pos => ({ s with m_seekPos := pos }, BufferEnd.LoopEnd) := by
  have hdiv : 0 < s.m_samplesSize / s.channelCount := Nat.div_pos hb hc
  obtain ⟨hfill, hlt⟩ := toFill_shrunk s hl he (by omega) (by omega)
  have h0 : s.toFill = 0 := by
    rw [hfill, hcur, Nat.sub_self, Nat.zero_mul]
  have hget : s.onGetData 0 = some (s, 0, false) := by
    rw [onGetData_eq s 0 (by omega)]
    have hne : ¬(0 = s.m_samplesSize) := by omega
    simp [hne]
  refine ⟨h0, ?_, ?_, onLoop_loopEnd s ⟨hl, hcur⟩⟩
  · have hr : s.fileRead s.toFill = 0 := by
      unfold Music.fileRead
      rw [h0, Nat.zero_min]
    rw [hr]
    exact hget
  · intro delivered hd
    have hd0 : delivered = 0 := by omega
    rw [hd0]
    exact hget

/-- Witness of C28: on frame 500 of the ten-second track looping over (200, 500), reached
by the full chunk from 400, the chunk is empty and `onLoop` goes to 200. -/
theorem onGetData_empty_at_loopEnd_witness :
    (Music.forwardLoopAt 400).onGetData 100 = some (Music.forwardLoopAt 500, 100, true) ∧
      (Music.forwardLoopAt 500).onLoop = some (Music.forwardLoopAt 200, BufferEnd.LoopEnd) ∧
      (Music.forwardLoopAt 500).toFill = 0 ∧
      (Music.forwardLoopAt 500).onGetData
          ((Music.forwardLoopAt 500).fileRead (Music.forwardLoopAt 500).toFill) =
        some (Music.forwardLoopAt 500, 0, false) ∧
      (∀ delivered, delivered ≤ (Music.forwardLoopAt 500).toFill →
        (Music.forwardLoopAt 500).onGetData delivered =
          some (Music.forwardLoopAt 500, 0, false)) ∧
      (Music.forwardLoopAt 500).onLoop =
        (Music.forwardLoopAt 500).loopSeekFrame.map fun pos =>
          ({ Music.forwardLoopAt 500 with m_seekPos := pos }, BufferEnd.LoopEnd) :=
  ⟨by decide, by decide!,
    onGetData_empty_at_loopEnd (Music.forwardLoopAt 500) (by decide) (by decide) (by decide)
      (by decide) (by decide)⟩

/-! ## Requests, seeks and normal forms -/

/-- C25: on a track with a channel `onGetData` never asks the file for more than the buffer
of samples holds; and when it asks for less, the cursor is at or before the loop end, so
that the difference loop end - cursor it multiplies is the true, non-negative difference. -/
theorem toFill_within_buffer (s : Music) (hc : 1 ≤ s.channelCount) :
    s.toFill ≤ s.m_samplesSize ∧
      (s.toFill ≠ s.m_samplesSize → s.m_seekPos ≤ s.m_loopEnd ∧
        (s.toFill : ℤ) = ((s.m_loopEnd : ℤ) - (s.m_seekPos : ℤ)) * (s.channelCount : ℤ)) := by
  have _hc0 : s.channelCount ≠ 0 := Nat.one_le_iff_ne_zero.mp hc
  by_cases hcond : s.loop = true ∧ s.m_loopEnd ≠ 0 ∧ s.m_seekPos ≤ s.m_loopEnd ∧
      s.m_seekPos + s.m_samplesSize / s.channelCount > s.m_loopEnd
  · obtain ⟨hl, he, hpos, hnear⟩ := hcond
    obtain ⟨hfill, hlt⟩ := toFill_shrunk s hl he hpos hnear
    refine ⟨Nat.le_of_lt hlt, fun _ => ⟨hpos, ?_⟩⟩
    rw [hfill]
    push_cast [Nat.cast_sub hpos]
    ring
  · have hfull : s.toFill = s.m_samplesSize := by
      unfold Music.toFill
      rw [if_neg hcond]
    exact ⟨Nat.le_of_eq hfull, fun hne => absurd hfull hne⟩

/-- Witness of C25: at frame 450 of the ten-second track looping over (200, 500) the
request is 50 of the 100 samples of the buffer, and 450 is before the loop end. -/
theorem toFill_within_buffer_witness :
    (Music.forwardLoopAt 450).toFill = 50 ∧
      (Music.forwardLoopAt 450).toFill ≤ (Music.forwardLoopAt 450).m_samplesSize ∧
      (Music.forwardLoopAt 450).m_seekPos ≤ (Music.forwardLoopAt 450).m_loopEnd ∧
      ((Music.forwardLoopAt 450).toFill : ℤ) =
        (((Music.forwardLoopAt 450).m_loopEnd : ℤ) - ((Music.forwardLoopAt 450).m_seekPos : ℤ)) *
          ((Music.forwardLoopAt 450).channelCount : ℤ) :=
  ⟨by decide, (toFill_within_buffer (Music.forwardLoopAt 450) (by decide)).1,
    (toFill_within_buffer (Music.forwardLoopAt 450) (by decide)).2 (by decide)⟩

/-- C24, as stated, fails: at 100 Hz `onSeek(seconds(0.7f))` puts the cursor on frame 70,
the truncation of the `float` product 70.0f, where the truncation of the product of the
time 0.7f = 0.699999988... s and the sample rate is 69. -/
theorem onSeek_rounds_product :
    Music.tenSecondTrack.onSeek (seconds (roundFloat (7 / 10))) =
        some { Music.tenSecondTrack with m_seekPos := 70 } ∧
      ⌊(seconds (roundFloat (7 / 10))).asSeconds *
        (Music.tenSecondTrack.sampleRate : ℚ)⌋.toNat = 69 := by
  decide!

/-- C24, amended: for a non-negative time whose `float` product with the sample rate is
below 2 ^ 64, `onSeek` puts the cursor on the truncation of that product as the code
computes it, in single precision (the truncation of the exact product whenever that is a
`float`), without clamping it to the track, gives the file the same time to seek to, and
leaves the loop points and the sample count as they were. -/
theorem onSeek_sets_cursor (s : Music) (t : Time) (h0 : 0 ≤ t.asSeconds)
    (h1 : roundFloat (t.asSeconds * roundFloat s.sampleRate) < 2 ^ 64) :
    ∃ s', s.onSeek t = some s' ∧
      s'.m_seekPos = ⌊roundFloat (t.asSeconds * roundFloat s.sampleRate)⌋.toNat ∧
      (roundFloat s.sampleRate = s.sampleRate →
        roundFloat (t.asSeconds * s.sampleRate) = t.asSeconds * s.sampleRate →
        s'.m_seekPos = ⌊t.asSeconds * s.sampleRate⌋.toNat) ∧
      (∀ (α : Type) (seek : Time → α), Music.onSeekWith seek s t = some (seek t, s')) ∧
      s'.m_loopStart = s.m_loopStart ∧ s'.m_loopEnd = s.m_loopEnd ∧
      s'.m_sampleCount = s.m_sampleCount := by
  have hseek : s.onSeek t = some { s with
      m_seekPos := (⌊roundFloat (t.asSeconds * roundFloat s.sampleRate)⌋.toNat) } := by
    unfold Music.onSeek
    rw [timeToSamples_trunc s t h0 h1, Option.map_some']
  refine ⟨_, hseek, rfl, ?_, ?_, rfl, rfl, rfl⟩
  · intro hr hx
    show ⌊roundFloat (t.asSeconds * roundFloat s.sampleRate)⌋.toNat = _
    rw [hr, hx]
  · intro α seek
    unfold Music.onSeekWith
    rw [hseek, Option.map_some']

/-- Witness of the amended C24: a seek to 20 s on the ten-second track puts the cursor on
frame 2000, beyond the 1000 frames of the track. -/
theorem onSeek_sets_cursor_witness :
    Music.tenSecondTrack.onSeek (seconds 20) =
        some { Music.tenSecondTrack with m_seekPos := 2000 } ∧
      ∃ s', Music.tenSecondTrack.onSeek (seconds 20) = some s' ∧
        s'.m_seekPos = ⌊roundFloat ((seconds 20).asSeconds *
          roundFloat Music.tenSecondTrack.sampleRate)⌋.toNat ∧
        (roundFloat Music.tenSecondTrack.sampleRate = Music.tenSecondTrack.sampleRate →
          roundFloat ((seconds 20).asSeconds * Music.tenSecondTrack.sampleRate) =
            (seconds 20).asSeconds * Music.tenSecondTrack.sampleRate →
          s'.m_seekPos = ⌊(seconds 20).asSeconds * Music.tenSecondTrack.sampleRate⌋.toNat) ∧
        (∀ (α : Type) (seek : Time → α),
          Music.onSeekWith seek Music.tenSecondTrack (seconds 20) =
            some (seek (seconds 20), s')) ∧
        s'.m_loopStart = Music.tenSecondTrack.m_loopStart ∧
        s'.m_loopEnd = Music.tenSecondTrack.m_loopEnd ∧
        s'.m_sampleCount = Music.tenSecondTrack.m_sampleCount :=
  ⟨by decide!,
    onSeek_sets_cursor Music.tenSecondTrack (seconds 20) (by decide!) (by decide!)⟩

/-- On an opened track a pair of positions within the track, whose end is not 0 and which
differ (or are the whole track), is stored as it is. -/
lemma setLoopPoints_normal (s : Music) (x y : Nat) (hc : 0 < s.channelCount)
    (hs : 0 < s.m_sampleCount) (hx : x ≤ s.m_sampleCount / s.channelCount)
    (hy : y ≤ s.m_sampleCount / s.channelCount)
    (hy0 : y = 0 → s.m_sampleCount / s.channelCount = 0)
    (hxy : x = y → x = 0 ∧ y = s.m_sampleCount / s.channelCount) :
    s.setLoopPointsFromSamples x y = (true, { s with m_loopStart := x, m_loopEnd := y }) := by
  unfold Music.setLoopPointsFromSamples
  have h0 : ¬(s.channelCount = 0 ∨ s.m_sampleCount = 0) := by omega
  simp only [h0, if_false]
  generalize s.m_sampleCount / s.channelCount = frames at hx hy hy0 hxy ⊢
  split_ifs <;> simp_all <;> omega

/-- What the setter stores on an opened track is such a pair. -/
lemma setLoopPoints_stored (s : Music) (start end_ : Nat) (hc : 0 < s.channelCount)
    (hs : 0 < s.m_sampleCount) :
    ∃ x y, s.setLoopPointsFromSamples start end_ =
        (true, { s with m_loopStart := x, m_loopEnd := y }) ∧
      x ≤ s.m_sampleCount / s.channelCount ∧ y ≤ s.m_sampleCount / s.channelCount ∧
      (y = 0 → s.m_sampleCount / s.channelCount = 0) ∧
      (x = y → x = 0 ∧ y = s.m_sampleCount / s.channelCount) := by
  unfold Music.setLoopPointsFromSamples
  have h0 : ¬(s.channelCount = 0 ∨ s.m_sampleCount = 0) := by omega
  simp only [h0, if_false]
  generalize s.m_sampleCount / s.channelCount = frames
  refine ⟨_, _, rfl, ?_⟩
  split_ifs <;> simp_all

/-- C26: on an opened track the loop points that `setLoopPointsFromSamples(start, end)`
stores are a fixed point of the setter: called on them it returns true and leaves the state,
and so the stored loop points, as they are. -/
theorem setLoopPoints_idempotent (s : Music) (start end_ : Nat) (hc : 0 < s.channelCount)
    (hs : 0 < s.m_sampleCount) :
    (s.setLoopPointsFromSamples start end_).2.setLoopPointsFromSamples
        (s.setLoopPointsFromSamples start end_).2.m_loopStart
        (s.setLoopPointsFromSamples start end_).2.m_loopEnd =
      (true, (s.setLoopPointsFromSamples start end_).2) := by
  obtain ⟨x, y, hset, hx, hy, hy0, hxy⟩ := setLoopPoints_stored s start end_ hc hs
  rw [hset]
  exact setLoopPoints_normal { s with m_loopStart := x, m_loopEnd := y } x y hc hs hx hy hy0 hxy

/-- Witness of C26 on the ten-second track: the points (1500, 0) are stored as (0, 1000)
after the reset of the degenerate pair (1000, 1000), and (0, 1000) is stored as it is. -/
theorem setLoopPoints_idempotent_witness :
    ((Music.forwardLoopAt 0).setLoopPointsFromSamples 1500 0).2 =
        { Music.forwardLoopAt 0 with m_loopStart := 0, m_loopEnd := 1000 } ∧
      ((Music.forwardLoopAt 0).setLoopPointsFromSamples 1500 0).2.setLoopPointsFromSamples
          ((Music.forwardLoopAt 0).setLoopPointsFromSamples 1500 0).2.m_loopStart
          ((Music.forwardLoopAt 0).setLoopPointsFromSamples 1500 0).2.m_loopEnd =
        (true, ((Music.forwardLoopAt 0).setLoopPointsFromSamples 1500 0).2) :=
  ⟨by decide, setLoopPoints_idempotent (Music.forwardLoopAt 0) 1500 0 (by decide) (by decide)⟩

/-! ## Playback without looping -/

/-- Without looping `onGetData` asks for the full buffer. -/
lemma toFill_of_not_loop (s : Music) (hl : s.loop = false) : s.toFill = s.m_samplesSize := by
  unfold Music.toFill
  rw [if_neg]
  rintro ⟨h1, -⟩
  rw [hl] at h1
  cases h1

/-- Without looping, on a track with a channel and a buffer that is not empty, the calls of
`onGetData` return true as long as the file has a full buffer left and the next one returns
false: `k` full chunks and a last one deliver all the samples that were left. -/
lemma getDataUntilFalse_of_not_loop (k : Nat) :
    ∀ (s : Music) (remaining : Nat), s.loop = false → s.channelCount ≠ 0 →
      0 < s.m_samplesSize → remaining / s.m_samplesSize = k →
      Music.getDataUntilFalse (k + 1) s remaining =
        some (k + 1, remaining, remaining % s.m_samplesSize) := by
  induction k with
  | zero =>
    intro s remaining hl hc hB hk
    have hdm := Nat.div_add_mod remaining s.m_samplesSize
    rw [hk, Nat.mul_zero, Nat.zero_add] at hdm
    have hlt := Nat.mod_lt remaining hB
    have hread : Music.fileDeliver remaining s.toFill = remaining := by
      unfold Music.fileDeliver
      rw [toFill_of_not_loop s hl]
      exact Nat.min_eq_right (by omega)
    have hne : ¬(remaining = s.m_samplesSize) := by omega
    unfold Music.getDataUntilFalse
    rw [hread, onGetData_eq s _ hc]
    simp only [hne, decide_False, hdm]
  | succ k ih =>
    intro s remaining hl hc hB hk
    have hdm := Nat.div_add_mod remaining s.m_samplesSize
    rw [hk, Nat.mul_succ] at hdm
    have hge : s.m_samplesSize ≤ remaining := by omega
    have hread : Music.fileDeliver remaining s.toFill = s.m_samplesSize := by
      unfold Music.fileDeliver
      rw [toFill_of_not_loop s hl]
      exact Nat.min_eq_left hge
    obtain ⟨s1, hs1⟩ : ∃ s1 : Music,
        s1 = { s with m_seekPos := s.m_seekPos + s.m_samplesSize / s.channelCount } := ⟨_, rfl⟩
    have hsz : s1.m_samplesSize = s.m_samplesSize := by rw [hs1]
    have hrem : remaining - s.m_samplesSize + s.m_samplesSize = remaining :=
      Nat.sub_add_cancel hge
    have hk1 : (remaining - s.m_samplesSize) / s1.m_samplesSize = k := by
      have h3 := Nat.add_div_right (remaining - s.m_samplesSize) hB
      rw [hrem, hk] at h3
      rw [hsz]
      omega
    have hmod : (remaining - s.m_samplesSize) % s1.m_samplesSize =
        remaining % s.m_samplesSize := by
      rw [hsz]
      conv_rhs => rw [← hrem, Nat.add_mod_right]
    have hrec := ih s1 (remaining - s.m_samplesSize) (by rw [hs1]; exact hl)
      (by rw [hs1]; exact hc) (by rw [hsz]; exact hB) hk1
    rw [hmod] at hrec
    unfold Music.getDataUntilFalse
    rw [hread, onGetData_eq s _ hc, ← hs1]
    simp only [decide_True, hrec, Option.map_some', hrem]

/-- C27: on a track just opened, not looping, with a buffer that is not empty, and a file
that delivers the samples asked for or those that remain, the calls of `onGetData` return
true for the full chunks and false at call number `S / B + 1` (`S` the sample count, `B` the
buffer size); the chunks up to that call hold exactly `S` samples, the last one `S mod B`,
none when `B` divides `S`. -/
theorem nonlooping_playback_delivers_all (s0 s1 : Music) (file : SoundFile)
    (hopen : s0.initializeState file = some s1) (hl : s1.loop = false)
    (hbuf : 0 < s1.m_samplesSize) :
    s1.m_sampleCount = file.sampleCount ∧ s1.m_seekPos = 0 ∧
      Music.getDataUntilFalse (s1.m_sampleCount / s1.m_samplesSize + 1) s1 s1.m_sampleCount =
        some (s1.m_sampleCount / s1.m_samplesSize + 1, s1.m_sampleCount,
          s1.m_sampleCount % s1.m_samplesSize) ∧
      (s1.m_samplesSize ∣ s1.m_sampleCount → s1.m_sampleCount % s1.m_samplesSize = 0) := by
  have hc : 0 < file.channelCount := by
    by_contra h0
    have h1 : file.channelCount = 0 := by omega
    simp [Music.initializeState, h1] at hopen
  rw [initializeState_eq s0 file hc, Option.some.injEq] at hopen
  have hcount : s1.m_sampleCount = file.sampleCount := by rw [← hopen]
  have hpos : s1.m_seekPos = 0 := by rw [← hopen]
  have hch : s1.channelCount = file.channelCount := by rw [← hopen]
  have hrun := getDataUntilFalse_of_not_loop (s1.m_sampleCount / s1.m_samplesSize) s1
    s1.m_sampleCount hl (by omega) hbuf rfl
  exact ⟨hcount, hpos, hrun, fun hdvd => Nat.mod_eq_zero_of_dvd hdvd⟩

/-- Witness of C27 on the ten-second track: ten full chunks of 100 samples and an empty
eleventh one, 1000 samples in all. -/
theorem nonlooping_playback_delivers_all_witness :
    Music.getDataUntilFalse 11 Music.tenSecondTrack 1000 = some (11, 1000, 0) ∧
      Music.tenSecondTrack.m_sampleCount = Music.tenSecondFile.sampleCount ∧
      Music.tenSecondTrack.m_seekPos = 0 ∧
      Music.getDataUntilFalse
          (Music.tenSecondTrack.m_sampleCount / Music.tenSecondTrack.m_samplesSize + 1)
          Music.tenSecondTrack Music.tenSecondTrack.m_sampleCount =
        some (Music.tenSecondTrack.m_sampleCount / Music.tenSecondTrack.m_samplesSize + 1,
          Music.tenSecondTrack.m_sampleCount,
          Music.tenSecondTrack.m_sampleCount % Music.tenSecondTrack.m_samplesSize) ∧
      (Music.tenSecondTrack.m_samplesSize ∣ Music.tenSecondTrack.m_sampleCount →
        Music.tenSecondTrack.m_sampleCount % Music.tenSecondTrack.m_samplesSize = 0) :=
  ⟨by decide,
    nonlooping_playback_delivers_all Music.new Music.tenSecondTrack Music.tenSecondFile
      (by decide) (by decide) (by decide)⟩

/-! ## The loop points and the mutex -/

/-- A step keeps an `onGetData` call guarded. -/
lemma step_getDataGuarded (c c' : Interleaving) (ctx : Context)
    (h : c.step ctx = some c') (hinv : c.GetDataGuarded) : c'.GetDataGuarded := by
  obtain ⟨h1, h2, h3, h4⟩ := hinv
  unfold Interleaving.step at h
  cases ctx with
  | control =>
    simp only at h
    cases hpc : c.setterPc <;> simp only [hpc] at h h1
    · split_ifs at h with hm
      simp only [Option.some.injEq] at h
      subst h
      simp_all [Interleaving.GetDataGuarded]
      exact h4
    · simp only [Option.some.injEq] at h
      subst h
      simp_all [Interleaving.GetDataGuarded]
      exact h4
    · simp only [Option.some.injEq] at h
      subst h
      simp_all [Interleaving.GetDataGuarded]
      exact h4
    · simp only [Option.some.injEq] at h
      subst h
      simp_all [Interleaving.GetDataGuarded]
      exact h4
    · cases h
  | feed =>
    simp only at h
    cases hpc : c.feedPc <;> simp only [hpc] at h h2 h3
    · split_ifs at h with hm
      simp only [Option.some.injEq] at h
      subst h
      simp_all [Interleaving.GetDataGuarded]
      exact h4
    · cases hg : c.music.onGetData c.delivered with
      | none => simp [hg] at h
      | some r =>
        simp only [hg, Option.map_some', Option.some.injEq] at h
        subst h
        simp_all [Interleaving.GetDataGuarded]
        exact h4
    · simp only [Option.some.injEq] at h
      subst h
      simp_all [Interleaving.GetDataGuarded]
      exact h4
    all_goals simp_all

/-- A schedule keeps an `onGetData` call guarded. -/
lemma run_getDataGuarded (sched : List Context) :
    ∀ c c' : Interleaving, c.run sched = some c' → c.GetDataGuarded → c'.GetDataGuarded := by
  induction sched with
  | nil =>
    intro c c' h hinv
    simp only [Interleaving.run, Option.some.injEq] at h
    rw [← h]
    exact hinv
  | cons ctx rest ih =>
    intro c c' h hinv
    rw [Interleaving.run] at h
    cases hs : c.step ctx with
    | none => simp [hs] at h
    | some c1 =>
      rw [hs, Option.some_bind] at h
      exact ih c1 c' h (step_getDataGuarded c c1 ctx hs hinv)

/-- In the model `onGetData` does what the claim says: whatever the schedule of the two
contexts, it reads the loop end only while the feed context holds the mutex, hence never
between the two writes of the setter. -/
lemma onGetData_reads_locked (sched : List Context) (c : Interleaving)
    (h : (Interleaving.race FeedPc.getDataLock).run sched = some c) :
    (∀ x ∈ c.holders, x = some Context.feed) ∧
      (c.mutex = some Context.feed → c.setterPc ≠ SetterPc.writeEnd) := by
  have hinit : (Interleaving.race FeedPc.getDataLock).GetDataGuarded := by
    simp [Interleaving.GetDataGuarded, Interleaving.race]
  obtain ⟨h1, -, -, h4⟩ := run_getDataGuarded sched _ c h hinit
  refine ⟨h4, ?_⟩
  intro hm hpc
  have := h1.mpr (Or.inr (Or.inl hpc))
  rw [hm] at this
  cases this

/-- C19 fails for `onLoop`.  While the control context, holding the mutex, has written the
new loop start 700 and not yet the new loop end 300, an `onGetData` call of the feed context
waits for the mutex, but an `onLoop` call goes on: it reads the old loop end 500 and the new
loop start 700, both while the control context holds the mutex, and then seeks to 700. -/
theorem onLoop_reads_without_lock :
    (((Interleaving.race FeedPc.loopCompare).run [Context.control, Context.control]).map
        fun c => (c.music.m_loopStart, c.music.m_loopEnd, c.mutex)) =
        some (700, 500, some Context.control) ∧
      (Interleaving.race FeedPc.getDataLock).run
          [Context.control, Context.control, Context.feed] = none ∧
      (((Interleaving.race FeedPc.loopCompare).run
          [Context.control, Context.control, Context.feed, Context.feed]).map
        fun c => (c.seenLoopStart, c.seenLoopEnd, c.holders)) =
        some (some 700, some 500, [some Context.control, some Context.control]) ∧
      (((Interleaving.race FeedPc.loopCompare).run
          [Context.control, Context.control, Context.feed, Context.feed, Context.control,
            Context.control, Context.feed, Context.feed, Context.feed]).map
        fun c => (c.music, c.setterPc, c.feedPc)) =
        some (Music.reverseLoopAt 700, SetterPc.done, FeedPc.done) := by
  decide!

end sf
